import Mathlib

/-! MaxLinear GSW1XX switch-tag printer (`print-dsa-gsw1xx.c`)

A shallow embedding of the tag printer: the bit-field extraction macros, the
mode-dependent field printer `tag_common_print`, and the tag printer
`edsa_tag_print`, followed by theorems about them.

Printing is modelled as a log of `ND_PRINT` calls (one string per call, in call
order); the text that reaches the terminal is the concatenation of the log.
A bounds-checked read that fails aborts the routine (tcpdump's truncation
long jump); what was printed before the abort stays printed.
-/

namespace GSW1XX

/-! ## Data model -/

/-- One octet of captured packet data (C `u_char`). -/
abbrev u_char := Fin 256

/-- The part of `netdissect_options` the printer touches: the link-level
verbosity (`-e` count, a C `int`), the current protocol name and the running
link-layer header length. -/
structure netdissect_options where
  ndo_eflag : Int
  ndo_protocol : String
  ndo_ll_hdr_len : Nat
  deriving DecidableEq, Repr

/-- Outcome of a printing routine: `out` is the log of strings printed, in
order; `val` is the returned value, or `none` when the routine was aborted by a
truncated read. -/
structure Printed (α : Type) where
  out : List String
  val : Option α
  deriving DecidableEq, Repr

/-- Return a value, printing nothing. -/
def Printed.ret {α : Type} (a : α) : Printed α := ⟨[], some a⟩

/-- Sequencing: run `x`; if it was aborted the abort propagates with what was
printed so far, otherwise continue with `f` and append what it prints. -/
def Printed.andThen {α β : Type} (x : Printed α) (f : α → Printed β) : Printed β :=
  match x.val with
  | none => ⟨x.out, none⟩
  | some a => ⟨x.out ++ (f a).out, (f a).val⟩

instance : Monad Printed where
  pure := Printed.ret
  bind := Printed.andThen

/-- One `ND_PRINT` call whose formatted text is `s`. -/
def ND_PRINT (s : String) : Printed Unit := ⟨[s], some ()⟩

/-- Abort by truncation: nothing more is printed and no value is returned. -/
def nd_trunc_longjmp {α : Type} : Printed α := ⟨[], none⟩

/-- Modelled from the spec: `GET_U_1` of `extract.h` (not under src/), the
bounds-checked one-octet read: "each field read validates
`byteOffset < availableLength`; on first truncated read, abort tag decoding".
`p` holds the octets available from the tag pointer on. -/
def GET_U_1 (p : List u_char) (byte : Nat) : Printed Nat :=
  match p.get? byte with
  | some b => pure b.val
  | none => nd_trunc_longjmp

/-- Modelled from the spec: `GET_BE_U_2` of `extract.h` (not under src/), the
bounds-checked read of a big-endian 16-bit value from the first two octets. -/
def GET_BE_U_2 (p : List u_char) : Printed Nat :=
  match p with
  | b0 :: b1 :: _ => pure ((b0.val <<< 8) ||| b1.val)
  | _ => nd_trunc_longjmp

/-- Model of a `printf` conversion `%d` applied to a non-negative `int`. -/
def printf_d (v : Nat) : String := toString v

/-- Model of a `printf` conversion `%04x`: lowercase hexadecimal, padded with
zeros on the left to at least four digits. -/
def printf_04x (v : Nat) : String :=
  String.mk (List.replicate (4 - (Nat.toDigits 16 v).length) '0' ++ Nat.toDigits 16 v)

/-- An entry of a `struct tok` table: value and name. -/
abbrev tok := Nat × String

/-- Modelled from the spec: `tok2str` of `util-print.c` (not under src/): the
name the symbol table gives for `v`, or the fallback `fmt` ("must return
a defined unknown fallback string for unrecognized values, never fail"). -/
def tok2str (lp : List tok) (fmt : String) (v : Nat) : String :=
  match lp.find? (fun t => t.1 == v) with
  | some t => t.2
  | none => fmt

/-! ## Field extraction macros -/

/-- The macro `TOK(tag, byte, mask, shift)`: read one octet, mask it, shift it
down. -/
def TOK (tag : List u_char) (byte mask shift : Nat) : Printed Nat := do
  let b ← GET_U_1 tag byte
  pure ((b &&& mask) >>> shift)

def GSW1XX_ET1 (tag : List u_char) : Printed Nat := TOK tag 0 0xFF 0
def GSW1XX_ET2 (tag : List u_char) : Printed Nat := TOK tag 1 0xFF 0
def GSW1XX_PME (tag : List u_char) : Printed Nat := TOK tag 2 0x80 7
def GSW1XX_TCE (tag : List u_char) : Printed Nat := TOK tag 2 0x40 6
def GSW1XX_TSE (tag : List u_char) : Printed Nat := TOK tag 2 0x20 5
def GSW1XX_FNL (tag : List u_char) : Printed Nat := TOK tag 2 0x10 4
def GSW1XX_TTC (tag : List u_char) : Printed Nat := TOK tag 2 0x08 0
def GSW1XX_MAP_LOW (tag : List u_char) : Printed Nat := TOK tag 3 0xFF 0
def GSW1XX_MAP_HIGH (tag : List u_char) : Printed Nat := TOK tag 4 0xFF 0

def GSW1XX_MAP (tag : List u_char) : Printed Nat := do
  let hi ← GSW1XX_MAP_HIGH tag
  let lo ← GSW1XX_MAP_LOW tag
  pure ((hi <<< 8) + lo)

def GSW1XX_LEN_LOW (tag : List u_char) : Printed Nat := TOK tag 7 0xFF 0
def GSW1XX_LEN_HIGH (tag : List u_char) : Printed Nat := TOK tag 6 0x3F 0

def GSW1XX_LEN (tag : List u_char) : Printed Nat := do
  let hi ← GSW1XX_LEN_HIGH tag
  let lo ← GSW1XX_LEN_LOW tag
  pure ((hi <<< 8) + lo)

def GSW1XX_IE (tag : List u_char) : Printed Nat := TOK tag 5 0x10 3
def GSW1XX_IPN (tag : List u_char) : Printed Nat := TOK tag 2 0x0F 0
def GSW1XX_EG_TC (tag : List u_char) : Printed Nat := TOK tag 2 0xF0 4
def GSW1XX_EG_EPN (tag : List u_char) : Printed Nat := TOK tag 2 0x0F 0
def GSW1XX_EG_POE (tag : List u_char) : Printed Nat := TOK tag 2 0x80 7
def GSW1XX_EG_IV4 (tag : List u_char) : Printed Nat := TOK tag 2 0x40 6
def GSW1XX_EG_IPO (tag : List u_char) : Printed Nat := TOK tag 3 0x3F 0

def EDSA_LEN : Nat := 8
def GSW1XX_TAG : Nat := 0x88c3

/-! ## The printers -/

/-- The function `tag_common_print`: the mode-dependent field printer. -/
def tag_common_print (ndo : netdissect_options) (p : List u_char) : Printed Unit := do
  if ndo.ndo_eflag ≠ 0 then
    let len ← GSW1XX_LEN p
    let egress : Bool := len != 0
    if egress then
      let ipn ← GSW1XX_IPN p
      ND_PRINT ("Egress Port " ++ printf_d ipn ++ ",")
      if ndo.ndo_eflag > 1 then
        let ttc ← GSW1XX_TTC p
        ND_PRINT ("TTC " ++ printf_d ttc ++ ",")
        let tce ← GSW1XX_TCE p
        ND_PRINT ("TCE " ++ printf_d tce ++ ",")
        let tc ← GSW1XX_EG_TC p
        ND_PRINT ("TC " ++ printf_d tc ++ ",")
        let epn ← GSW1XX_EG_EPN p
        ND_PRINT ("EPN " ++ printf_d epn ++ ",")
        let poe ← GSW1XX_EG_POE p
        ND_PRINT ("POE " ++ printf_d poe ++ ",")
        let ipo ← GSW1XX_EG_IPO p
        if ipo ≠ 0 then
          let iv4 ← GSW1XX_EG_IV4 p
          ND_PRINT ("IV4 " ++ printf_d iv4 ++ ",")
          let ipo2 ← GSW1XX_EG_IPO p
          ND_PRINT ("IPO " ++ printf_d ipo2 ++ ",")
        let len2 ← GSW1XX_LEN p
        ND_PRINT ("Len " ++ printf_d len2 ++ ",")
    else
      let ipn ← GSW1XX_IPN p
      ND_PRINT ("Ingress Port " ++ printf_d ipn ++ ",")
      let map ← GSW1XX_MAP p
      ND_PRINT ("MAP " ++ printf_d map ++ ",")
      if ndo.ndo_eflag > 1 then
        let pme ← GSW1XX_PME p
        ND_PRINT ("PME " ++ printf_d pme ++ ",")
        let tce ← GSW1XX_TCE p
        ND_PRINT ("TCE " ++ printf_d tce ++ ",")
        let ttc ← GSW1XX_TTC p
        ND_PRINT ("TTC " ++ printf_d ttc ++ ",")
        let fnl ← GSW1XX_FNL p
        ND_PRINT ("FNL " ++ printf_d fnl ++ ",")
        let ie ← GSW1XX_IE p
        ND_PRINT ("irq " ++ printf_d ie ++ ",")

/-- The function `edsa_tag_print`: the identification token, then the fields.
`ethertype_values` is the EtherType symbol table (declared outside src/). -/
def edsa_tag_print (ethertype_values : List tok) (ndo : netdissect_options)
    (bp : List u_char) : Printed Unit := do
  let p := bp
  let edsa_etype ← GET_BE_U_2 p
  if ndo.ndo_eflag > 2 then
    ND_PRINT ("MaxLinear ethertype 0x" ++ printf_04x edsa_etype ++ " ("
      ++ tok2str ethertype_values "Unknown" edsa_etype ++ "), ")
  else
    if edsa_etype = GSW1XX_TAG then
      ND_PRINT "GSW1XX "
    else
      ND_PRINT ("GSW1XX Unknown 0x" ++ printf_04x edsa_etype ++ ", ")
  tag_common_print ndo p

/-- The text written to the output stream: the printed strings, concatenated. -/
def text {α : Type} (r : Printed α) : String := String.join r.out

/-! ## Observers used to state properties of the printed log -/

/-- A field token: label, one space, the value in decimal, a comma. -/
def field_token (label : String) (v : Nat) : String := label ++ " " ++ printf_d v ++ ","

/-- The field printer took its egress branch: the first thing it printed is an
`Egress Port` token. -/
def egress_branch (r : Printed Unit) : Prop :=
  ∃ v, r.out.head? = some ("Egress Port " ++ printf_d v ++ ",")

/-- The field printer took its ingress branch: the first thing it printed is an
`Ingress Port` token. -/
def ingress_branch (r : Printed Unit) : Prop :=
  ∃ v, r.out.head? = some ("Ingress Port " ++ printf_d v ++ ",")

/-- Two labels clash when, each followed by a space, one is a prefix of the
other; tokens with non-clashing labels are different strings. -/
def clash (l l2 : String) : Prop :=
  (l ++ " ").data <+: (l2 ++ " ").data ∨ (l2 ++ " ").data <+: (l ++ " ").data

instance (l l2 : String) : Decidable (clash l l2) := by unfold clash; infer_instance

/-- A field descriptor, the arguments of one `TOK` use: name, octet index, mask
and shift. -/
structure FieldSpec where
  name : String
  byte : Nat
  mask : Nat
  shift : Nat
  deriving DecidableEq, Repr

/-- The named fields, one per `GSW1XX_*` macro built on `TOK`. -/
def named_fields : List FieldSpec :=
  [⟨"ET1", 0, 0xFF, 0⟩, ⟨"ET2", 1, 0xFF, 0⟩, ⟨"PME", 2, 0x80, 7⟩, ⟨"TCE", 2, 0x40, 6⟩,
   ⟨"TSE", 2, 0x20, 5⟩, ⟨"FNL", 2, 0x10, 4⟩, ⟨"TTC", 2, 0x08, 0⟩, ⟨"MAP_LOW", 3, 0xFF, 0⟩,
   ⟨"MAP_HIGH", 4, 0xFF, 0⟩, ⟨"LEN_LOW", 7, 0xFF, 0⟩, ⟨"LEN_HIGH", 6, 0x3F, 0⟩,
   ⟨"IE", 5, 0x10, 3⟩, ⟨"IPN", 2, 0x0F, 0⟩, ⟨"EG_TC", 2, 0xF0, 4⟩, ⟨"EG_EPN", 2, 0x0F, 0⟩,
   ⟨"EG_POE", 2, 0x80, 7⟩, ⟨"EG_IV4", 2, 0x40, 6⟩, ⟨"EG_IPO", 3, 0x3F, 0⟩]

/-- Number of bits set in an 8-bit mask: the declared width of the field. -/
def bits_set (mask : Nat) : Nat :=
  ((List.range 8).filter (fun i => mask.testBit i)).length

/-- The part of `struct pcap_pkthdr` the entry point reads: captured length and
length on the wire (both `bpf_u_int32`). -/
structure pcap_pkthdr where
  caplen : Nat
  len : Nat
  deriving DecidableEq, Repr

/-- The type of a switch-tag callback, `void (*)(netdissect_options *, const
u_char *)`. -/
abbrev tag_printer := netdissect_options → List u_char → Printed Unit

/-- The type of `ether_switch_tag_print` (defined in `print-ether.c`, outside
src/): options, frame, length, captured length, tag callback and tag size; it
prints and returns a `u_int`, or is aborted by a truncated read. -/
abbrev switch_tag_dispatcher :=
  netdissect_options → List u_char → Nat → Nat → tag_printer → Nat → Printed Nat

/-- The function `edsa_gsw1xx_if_print`. It returns `void`; its effect is the
final options structure and what was printed. The protocol name is recorded
before the dispatcher is called, so it stays recorded when the dispatcher is
aborted; the `+=` on the `u_int` `ndo_ll_hdr_len` happens only when the
dispatcher returns. -/
def edsa_gsw1xx_if_print (ether_switch_tag_print : switch_tag_dispatcher)
    (ethertype_values : List tok) (ndo : netdissect_options) (h : pcap_pkthdr)
    (p : List u_char) : netdissect_options × Printed Unit :=
  let caplen := h.caplen
  let length := h.len
  let ndo1 : netdissect_options := { ndo with ndo_protocol := "gsw1xx" }
  let r := ether_switch_tag_print ndo1 p length caplen (edsa_tag_print ethertype_values)
    EDSA_LEN
  match r.val with
  | some n =>
    ({ ndo1 with ndo_ll_hdr_len := (ndo1.ndo_ll_hdr_len + n) % 2 ^ 32 }, ⟨r.out, some ()⟩)
  | none => (ndo1, ⟨r.out, none⟩)

/-- Modelled from the spec: a stand-in for the frame dispatcher
`ether_switch_tag_print` (in `print-ether.c`, not under src/), which "performs
the generic MAC-address printing and bounds pre-check, invokes this decoder's
Formatter as a callback" and reports the link-layer header octets consumed. In
place of the addresses this stand-in prints the protocol name it finds recorded
and the lengths and tag size it was given; the callback gets the octets after
the two 6-octet addresses. -/
def probe_dispatcher : switch_tag_dispatcher :=
  fun ndo p length caplen print_switch_tag switch_tag_len =>
    if caplen < 14 + switch_tag_len then
      ND_PRINT (" [|" ++ ndo.ndo_protocol ++ "]") >>= fun _ => pure caplen
    else
      ND_PRINT ("[" ++ ndo.ndo_protocol ++ " " ++ printf_d length ++ " " ++ printf_d caplen
        ++ " " ++ printf_d switch_tag_len ++ "] ") >>= fun _ =>
      print_switch_tag ndo (p.drop 12) >>= fun _ =>
      pure (14 + switch_tag_len)

/-- The labels of the field tokens. -/
def LABELS : List String :=
  ["Egress Port", "Ingress Port", "MAP", "TTC", "TCE", "TC", "EPN", "POE", "IV4", "IPO",
   "Len", "PME", "FNL", "irq"]

/-- Value of a string of decimal digits, most significant digit first. -/
def dec_value (cs : List Char) : Nat := cs.foldl (fun a c => 10 * a + (c.toNat - 48)) 0

/-- Closed form of the log of `tag_common_print` on an eight-octet window, as
(label, value) pairs in print order. It is a proof device: `tcp_eq_field_list`
shows the printer logs exactly these pairs, and the claims are stated on the
printer. -/
def field_list (eflag : Int) (b2 b3 b4 b5 b6 b7 : u_char) : List (String × Nat) :=
  if eflag = 0 then []
  else if ((b6.val &&& 0x3F) <<< 8) + b7.val ≠ 0 then
    ("Egress Port", b2.val &&& 0x0F) ::
      (if eflag > 1 then
        [("TTC", b2.val &&& 0x08), ("TCE", (b2.val &&& 0x40) >>> 6),
         ("TC", (b2.val &&& 0xF0) >>> 4), ("EPN", b2.val &&& 0x0F),
         ("POE", (b2.val &&& 0x80) >>> 7)]
        ++ (if b3.val &&& 0x3F ≠ 0 then
              [("IV4", (b2.val &&& 0x40) >>> 6), ("IPO", b3.val &&& 0x3F)] else [])
        ++ [("Len", ((b6.val &&& 0x3F) <<< 8) + b7.val)]
      else [])
  else
    [("Ingress Port", b2.val &&& 0x0F), ("MAP", (b4.val <<< 8) + b3.val)]
      ++ (if eflag > 1 then
            [("PME", (b2.val &&& 0x80) >>> 7), ("TCE", (b2.val &&& 0x40) >>> 6),
             ("TTC", b2.val &&& 0x08), ("FNL", (b2.val &&& 0x10) >>> 4),
             ("irq", (b5.val &&& 0x10) >>> 3)]
          else [])

/-! ## Helper lemmas: sequencing and strings -/

@[simp] theorem pure_eq {α : Type} (a : α) : (pure a : Printed α) = ⟨[], some a⟩ := rfl

@[simp] theorem bind_mk_some {α β : Type} (o : List String) (a : α) (f : α → Printed β) :
    ((⟨o, some a⟩ : Printed α) >>= f) = ⟨o ++ (f a).out, (f a).val⟩ := rfl

@[simp] theorem bind_mk_none {α β : Type} (o : List String) (f : α → Printed β) :
    ((⟨o, none⟩ : Printed α) >>= f) = ⟨o, none⟩ := rfl

theorem and_ff (b : u_char) : b.val &&& 0xFF = b.val := by
  have h := Nat.and_pow_two_sub_one_eq_mod b.val 8
  have h2 := b.isLt
  simp at h
  omega

/-- Two strings with a common extension have comparable character lists. -/
theorem str_prefix_or (a b x y : String) (h : a ++ x = b ++ y) :
    a.data <+: b.data ∨ b.data <+: a.data := by
  have h2 : a.data ++ x.data = b.data ++ y.data := by
    have := congrArg String.data h
    simpa [String.data_append] using this
  have ha : a.data <+: a.data ++ x.data := List.prefix_append _ _
  have hb : b.data <+: a.data ++ x.data := h2 ▸ List.prefix_append _ _
  exact List.prefix_or_prefix_of_prefix ha hb

theorem egress_ne_ingress (x y : String) :
    "Egress Port " ++ x ++ "," ≠ "Ingress Port " ++ y ++ "," := by
  intro h
  rw [String.append_assoc, String.append_assoc] at h
  have := str_prefix_or _ _ _ _ h
  revert this
  decide

theorem field_token_clash (l l2 : String) (v v2 : Nat)
    (h : field_token l v = field_token l2 v2) : clash l l2 := by
  unfold field_token at h
  rw [String.append_assoc (l ++ " "), String.append_assoc (l2 ++ " ")] at h
  exact str_prefix_or _ _ _ _ h

theorem field_token_val (l : String) (v v2 : Nat)
    (h : field_token l v = field_token l v2) : printf_d v = printf_d v2 := by
  unfold field_token at h
  have := congrArg String.data h
  simp only [String.data_append, List.append_cancel_right_eq, List.append_cancel_left_eq] at this
  exact String.ext this

theorem not_mem_zipWith (l : String) (v : Nat) :
    ∀ (labels : List String) (vals : List Nat), (∀ l2 ∈ labels, ¬ clash l l2) →
      field_token l v ∉ List.zipWith field_token labels vals
  | [], _, _ => by simp
  | _ :: _, [], _ => by simp
  | l2 :: ls, v2 :: vs, h => by
    rw [List.zipWith_cons_cons, List.mem_cons, not_or]
    exact ⟨fun he => h l2 (List.mem_cons_self _ _) (field_token_clash _ _ _ _ he),
      not_mem_zipWith l v ls vs (fun l3 h3 => h l3 (List.mem_cons_of_mem _ h3))⟩

theorem printf_d_zero (v : Nat) (hv : v < 64) (h : printf_d 0 = printf_d v) : v = 0 := by
  have key : ∀ u : Fin 64, printf_d 0 = printf_d u.val → u.val = 0 := by decide
  exact key ⟨v, hv⟩ h

theorem be16 (b0 b1 : u_char) : (b0.val <<< 8) ||| b1.val = 256 * b0.val + b1.val := by
  have h := Nat.mul_add_lt_is_or (i := 8) (b := b1.val) (by have := b1.isLt; omega) b0.val
  rw [Nat.shiftLeft_eq, Nat.mul_comm]
  exact h.symm

theorem tag_iff (b0 b1 : u_char) :
    (b0.val <<< 8) ||| b1.val = GSW1XX_TAG ↔ b0 = 0x88 ∧ b1 = 0xC3 := by
  rw [be16, GSW1XX_TAG]
  have h0 := b0.isLt
  have h1 := b1.isLt
  constructor
  · intro h
    exact ⟨Fin.ext (by show b0.val = 0x88; omega), Fin.ext (by show b1.val = 0xC3; omega)⟩
  · rintro ⟨rfl, rfl⟩
    rfl

theorem toDigitsCore_stop (f n : Nat) (ds : List Char) (h : n / 16 = 0) :
    Nat.toDigitsCore 16 (f + 1) n ds = Nat.digitChar (n % 16) :: ds := by
  simp [Nat.toDigitsCore, h]

theorem toDigitsCore_go (f n : Nat) (ds : List Char) (h : n / 16 ≠ 0) :
    Nat.toDigitsCore 16 (f + 1) n ds
      = Nat.toDigitsCore 16 f (n / 16) (Nat.digitChar (n % 16) :: ds) := by
  simp [Nat.toDigitsCore, h]

/-- For a 16-bit value `%04x` prints exactly the four hexadecimal digits. -/
theorem hex4 (v : Nat) (hv : v < 65536) :
    printf_04x v = String.mk [Nat.digitChar (v / 4096 % 16), Nat.digitChar (v / 256 % 16),
      Nat.digitChar (v / 16 % 16), Nat.digitChar (v % 16)] := by
  unfold printf_04x Nat.toDigits
  by_cases h1 : v < 16
  · have e0 : v / 16 = 0 := by omega
    have e1 : v / 256 % 16 = 0 := by omega
    have e2 : v / 4096 % 16 = 0 := by omega
    have e3 : v / 16 % 16 = 0 := by omega
    rw [toDigitsCore_stop _ _ _ e0, e1, e2, e3]
    rfl
  · by_cases h2 : v < 256
    · obtain ⟨f, hf⟩ : ∃ f, v + 1 = f + 1 + 1 := ⟨v - 1, by omega⟩
      have e0 : v / 16 ≠ 0 := by omega
      have e1 : v / 16 / 16 = 0 := by omega
      have e2 : v / 4096 % 16 = 0 := by omega
      have e3 : v / 256 % 16 = 0 := by omega
      rw [hf, toDigitsCore_go _ _ _ e0, toDigitsCore_stop _ _ _ e1, e2, e3]
      rfl
    · by_cases h3 : v < 4096
      · obtain ⟨f, hf⟩ : ∃ f, v + 1 = f + 1 + 1 + 1 := ⟨v - 2, by omega⟩
        have e0 : v / 16 ≠ 0 := by omega
        have e1 : v / 16 / 16 ≠ 0 := by omega
        have e2 : v / 16 / 16 / 16 = 0 := by omega
        have e3 : v / 4096 % 16 = 0 := by omega
        have e4 : v / 16 / 16 % 16 = v / 256 % 16 := by omega
        rw [hf, toDigitsCore_go _ _ _ e0, toDigitsCore_go _ _ _ e1, toDigitsCore_stop _ _ _ e2,
          e3, e4]
        rfl
      · obtain ⟨f, hf⟩ : ∃ f, v + 1 = f + 1 + 1 + 1 + 1 := ⟨v - 3, by omega⟩
        have e0 : v / 16 ≠ 0 := by omega
        have e1 : v / 16 / 16 ≠ 0 := by omega
        have e2 : v / 16 / 16 / 16 ≠ 0 := by omega
        have e3 : v / 16 / 16 / 16 / 16 = 0 := by omega
        have e4 : v / 16 / 16 % 16 = v / 256 % 16 := by omega
        have e5 : v / 16 / 16 / 16 % 16 = v / 4096 % 16 := by omega
        rw [hf, toDigitsCore_go _ _ _ e0, toDigitsCore_go _ _ _ e1, toDigitsCore_go _ _ _ e2,
          toDigitsCore_stop _ _ _ e3, e4, e5]
        rfl

theorem hexdigit_lower :
    ∀ d : Fin 16, Nat.digitChar d.val ∈ "0123456789abcdef".data := by decide

theorem tok_bound (b mask shift : Nat) : (b &&& mask) >>> shift ≤ mask >>> shift := by
  rw [Nat.shiftRight_eq_div_pow, Nat.shiftRight_eq_div_pow]
  exact Nat.div_le_div_right Nat.and_le_right

/-! ## Reading an eight-octet window -/

section window
variable (b0 b1 b2 b3 b4 b5 b6 b7 : u_char)

theorem LEN_8 : GSW1XX_LEN [b0, b1, b2, b3, b4, b5, b6, b7]
    = ⟨[], some (((b6.val &&& 0x3F) <<< 8) + b7.val)⟩ := by
  have h : GSW1XX_LEN [b0, b1, b2, b3, b4, b5, b6, b7]
      = ⟨[], some ((((b6.val &&& 0x3F) >>> 0) <<< 8) + ((b7.val &&& 0xFF) >>> 0))⟩ := rfl
  rw [h, Nat.shiftRight_zero, Nat.shiftRight_zero, and_ff]

theorem MAP_8 : GSW1XX_MAP [b0, b1, b2, b3, b4, b5, b6, b7]
    = ⟨[], some ((b4.val <<< 8) + b3.val)⟩ := by
  have h : GSW1XX_MAP [b0, b1, b2, b3, b4, b5, b6, b7]
      = ⟨[], some ((((b4.val &&& 0xFF) >>> 0) <<< 8) + ((b3.val &&& 0xFF) >>> 0))⟩ := rfl
  rw [h, Nat.shiftRight_zero, Nat.shiftRight_zero, and_ff, and_ff]

theorem IPN_8 : GSW1XX_IPN [b0, b1, b2, b3, b4, b5, b6, b7]
    = ⟨[], some (b2.val &&& 0x0F)⟩ := rfl

theorem TTC_8 : GSW1XX_TTC [b0, b1, b2, b3, b4, b5, b6, b7]
    = ⟨[], some (b2.val &&& 0x08)⟩ := rfl

theorem TCE_8 : GSW1XX_TCE [b0, b1, b2, b3, b4, b5, b6, b7]
    = ⟨[], some ((b2.val &&& 0x40) >>> 6)⟩ := rfl

theorem PME_8 : GSW1XX_PME [b0, b1, b2, b3, b4, b5, b6, b7]
    = ⟨[], some ((b2.val &&& 0x80) >>> 7)⟩ := rfl

theorem FNL_8 : GSW1XX_FNL [b0, b1, b2, b3, b4, b5, b6, b7]
    = ⟨[], some ((b2.val &&& 0x10) >>> 4)⟩ := rfl

theorem IE_8 : GSW1XX_IE [b0, b1, b2, b3, b4, b5, b6, b7]
    = ⟨[], some ((b5.val &&& 0x10) >>> 3)⟩ := rfl

theorem EG_TC_8 : GSW1XX_EG_TC [b0, b1, b2, b3, b4, b5, b6, b7]
    = ⟨[], some ((b2.val &&& 0xF0) >>> 4)⟩ := rfl

theorem EG_EPN_8 : GSW1XX_EG_EPN [b0, b1, b2, b3, b4, b5, b6, b7]
    = ⟨[], some (b2.val &&& 0x0F)⟩ := rfl

theorem EG_POE_8 : GSW1XX_EG_POE [b0, b1, b2, b3, b4, b5, b6, b7]
    = ⟨[], some ((b2.val &&& 0x80) >>> 7)⟩ := rfl

theorem EG_IV4_8 : GSW1XX_EG_IV4 [b0, b1, b2, b3, b4, b5, b6, b7]
    = ⟨[], some ((b2.val &&& 0x40) >>> 6)⟩ := rfl

theorem EG_IPO_8 : GSW1XX_EG_IPO [b0, b1, b2, b3, b4, b5, b6, b7]
    = ⟨[], some (b3.val &&& 0x3F)⟩ := rfl

theorem BE_U_2_8 : GET_BE_U_2 [b0, b1, b2, b3, b4, b5, b6, b7]
    = ⟨[], some ((b0.val <<< 8) ||| b1.val)⟩ := rfl

/-! ## The field printer, case by case -/

theorem tcp_verbosity_zero (ndo : netdissect_options) (p : List u_char)
    (h0 : ndo.ndo_eflag = 0) : tag_common_print ndo p = ⟨[], some ()⟩ := by
  simp [tag_common_print, h0]

theorem tcp_egress_summary (ndo : netdissect_options) (h0 : ndo.ndo_eflag ≠ 0)
    (h1 : ¬ ndo.ndo_eflag > 1) (hl : ((b6.val &&& 0x3F) <<< 8) + b7.val ≠ 0) :
    tag_common_print ndo [b0, b1, b2, b3, b4, b5, b6, b7]
      = ⟨["Egress Port " ++ printf_d (b2.val &&& 0x0F) ++ ","], some ()⟩ := by
  unfold tag_common_print
  simp only [LEN_8, IPN_8]
  generalize ((b6.val &&& 0x3F) <<< 8) + b7.val = len at hl ⊢
  simp [ND_PRINT, h0, h1, hl]

theorem tcp_egress_detail (ndo : netdissect_options) (h1 : ndo.ndo_eflag > 1)
    (hl : ((b6.val &&& 0x3F) <<< 8) + b7.val ≠ 0) :
    tag_common_print ndo [b0, b1, b2, b3, b4, b5, b6, b7]
      = ⟨["Egress Port " ++ printf_d (b2.val &&& 0x0F) ++ ",",
          "TTC " ++ printf_d (b2.val &&& 0x08) ++ ",",
          "TCE " ++ printf_d ((b2.val &&& 0x40) >>> 6) ++ ",",
          "TC " ++ printf_d ((b2.val &&& 0xF0) >>> 4) ++ ",",
          "EPN " ++ printf_d (b2.val &&& 0x0F) ++ ",",
          "POE " ++ printf_d ((b2.val &&& 0x80) >>> 7) ++ ","]
         ++ (if b3.val &&& 0x3F ≠ 0 then
              ["IV4 " ++ printf_d ((b2.val &&& 0x40) >>> 6) ++ ",",
               "IPO " ++ printf_d (b3.val &&& 0x3F) ++ ","] else [])
         ++ ["Len " ++ printf_d (((b6.val &&& 0x3F) <<< 8) + b7.val) ++ ","], some ()⟩ := by
  have h0 : ndo.ndo_eflag ≠ 0 := by omega
  unfold tag_common_print
  simp only [LEN_8, IPN_8, TTC_8, TCE_8, EG_TC_8, EG_EPN_8, EG_POE_8, EG_IV4_8, EG_IPO_8]
  generalize ((b6.val &&& 0x3F) <<< 8) + b7.val = len at hl ⊢
  generalize b3.val &&& 0x3F = ipo
  by_cases hi : ipo = 0 <;> simp [ND_PRINT, h0, h1, hl, hi]

theorem tcp_ingress_summary (ndo : netdissect_options) (h0 : ndo.ndo_eflag ≠ 0)
    (h1 : ¬ ndo.ndo_eflag > 1) (hl : ((b6.val &&& 0x3F) <<< 8) + b7.val = 0) :
    tag_common_print ndo [b0, b1, b2, b3, b4, b5, b6, b7]
      = ⟨["Ingress Port " ++ printf_d (b2.val &&& 0x0F) ++ ",",
          "MAP " ++ printf_d ((b4.val <<< 8) + b3.val) ++ ","], some ()⟩ := by
  unfold tag_common_print
  simp only [LEN_8, IPN_8, MAP_8]
  generalize ((b6.val &&& 0x3F) <<< 8) + b7.val = len at hl ⊢
  simp [ND_PRINT, h0, h1, hl]

theorem tcp_ingress_detail (ndo : netdissect_options) (h1 : ndo.ndo_eflag > 1)
    (hl : ((b6.val &&& 0x3F) <<< 8) + b7.val = 0) :
    tag_common_print ndo [b0, b1, b2, b3, b4, b5, b6, b7]
      = ⟨["Ingress Port " ++ printf_d (b2.val &&& 0x0F) ++ ",",
          "MAP " ++ printf_d ((b4.val <<< 8) + b3.val) ++ ",",
          "PME " ++ printf_d ((b2.val &&& 0x80) >>> 7) ++ ",",
          "TCE " ++ printf_d ((b2.val &&& 0x40) >>> 6) ++ ",",
          "TTC " ++ printf_d (b2.val &&& 0x08) ++ ",",
          "FNL " ++ printf_d ((b2.val &&& 0x10) >>> 4) ++ ",",
          "irq " ++ printf_d ((b5.val &&& 0x10) >>> 3) ++ ","], some ()⟩ := by
  have h0 : ndo.ndo_eflag ≠ 0 := by omega
  unfold tag_common_print
  simp only [LEN_8, IPN_8, MAP_8, PME_8, TCE_8, TTC_8, FNL_8, IE_8]
  generalize ((b6.val &&& 0x3F) <<< 8) + b7.val = len at hl ⊢
  simp [ND_PRINT, h0, h1, hl]

/-- The tag printer on a full window: one identification string, then whatever
the field printer prints. -/
theorem edsa_8 (tbl : List tok) (ndo : netdissect_options) :
    edsa_tag_print tbl ndo [b0, b1, b2, b3, b4, b5, b6, b7]
      = ⟨(if ndo.ndo_eflag > 2 then
            "MaxLinear ethertype 0x" ++ printf_04x ((b0.val <<< 8) ||| b1.val) ++ " ("
              ++ tok2str tbl "Unknown" ((b0.val <<< 8) ||| b1.val) ++ "), "
          else if (b0.val <<< 8) ||| b1.val = GSW1XX_TAG then "GSW1XX "
          else "GSW1XX Unknown 0x" ++ printf_04x ((b0.val <<< 8) ||| b1.val) ++ ", ")
          :: (tag_common_print ndo [b0, b1, b2, b3, b4, b5, b6, b7]).out,
         (tag_common_print ndo [b0, b1, b2, b3, b4, b5, b6, b7]).val⟩ := by
  unfold edsa_tag_print
  simp only [BE_U_2_8]
  by_cases h2 : ndo.ndo_eflag > 2
  · simp [ND_PRINT, h2]
  · by_cases ht : (b0.val <<< 8) ||| b1.val = GSW1XX_TAG <;> simp [ND_PRINT, h2, ht]

/-- The branch taken, read off the log, for a non-zero verbosity. -/
theorem branch_iff (ndo : netdissect_options) (h0 : ndo.ndo_eflag ≠ 0) :
    (egress_branch (tag_common_print ndo [b0, b1, b2, b3, b4, b5, b6, b7])
        ↔ ((b6.val &&& 0x3F) <<< 8) + b7.val ≠ 0) ∧
    (ingress_branch (tag_common_print ndo [b0, b1, b2, b3, b4, b5, b6, b7])
        ↔ ((b6.val &&& 0x3F) <<< 8) + b7.val = 0) := by
  by_cases hl : ((b6.val &&& 0x3F) <<< 8) + b7.val = 0
  · have hin : ingress_branch (tag_common_print ndo [b0, b1, b2, b3, b4, b5, b6, b7]) := by
      by_cases h1 : ndo.ndo_eflag > 1
      · rw [tcp_ingress_detail _ _ _ _ _ _ _ _ ndo h1 hl]; exact ⟨_, rfl⟩
      · rw [tcp_ingress_summary _ _ _ _ _ _ _ _ ndo h0 h1 hl]; exact ⟨_, rfl⟩
    have heg : ¬ egress_branch (tag_common_print ndo [b0, b1, b2, b3, b4, b5, b6, b7]) := by
      rintro ⟨v, hv⟩
      obtain ⟨u, hu⟩ := hin
      rw [hu] at hv
      exact egress_ne_ingress _ _ (Option.some.inj hv).symm
    exact ⟨⟨fun h => absurd h heg, fun h => absurd hl h⟩, ⟨fun _ => hl, fun _ => hin⟩⟩
  · have heg : egress_branch (tag_common_print ndo [b0, b1, b2, b3, b4, b5, b6, b7]) := by
      by_cases h1 : ndo.ndo_eflag > 1
      · rw [tcp_egress_detail _ _ _ _ _ _ _ _ ndo h1 hl]; exact ⟨_, rfl⟩
      · rw [tcp_egress_summary _ _ _ _ _ _ _ _ ndo h0 h1 hl]; exact ⟨_, rfl⟩
    have hin : ¬ ingress_branch (tag_common_print ndo [b0, b1, b2, b3, b4, b5, b6, b7]) := by
      rintro ⟨v, hv⟩
      obtain ⟨u, hu⟩ := heg
      rw [hu] at hv
      exact egress_ne_ingress _ _ (Option.some.inj hv)
    exact ⟨⟨fun _ => hl, fun _ => heg⟩, ⟨fun h => absurd h hin, fun h => absurd h hl⟩⟩

end window

/-! ## Mode selection and the summary level -/

/-- Claim C1: mode selection. For every eight-octet window the value the
field printer tests is `((b6 & 0x3F) << 8) + b7`, a function of the low six bits
of octet 6 and of octet 7 alone. Wherever the mode test is reached (it sits
inside `if (ndo->ndo_eflag)`), the printer takes the egress branch exactly when
that value is non-zero and the ingress branch exactly when it is zero; and a
second window with the same low six bits of octet 6 and the same octet 7 takes
the same branch, whatever its other octets. -/
theorem mode_selection (b0 b1 b2 b3 b4 b5 b6 b7 : u_char) :
    GSW1XX_LEN [b0, b1, b2, b3, b4, b5, b6, b7]
      = ⟨[], some (((b6.val &&& 0x3F) <<< 8) + b7.val)⟩ ∧
    ∀ ndo : netdissect_options, ndo.ndo_eflag ≠ 0 →
      (egress_branch (tag_common_print ndo [b0, b1, b2, b3, b4, b5, b6, b7])
          ↔ ((b6.val &&& 0x3F) <<< 8) + b7.val ≠ 0) ∧
      (ingress_branch (tag_common_print ndo [b0, b1, b2, b3, b4, b5, b6, b7])
          ↔ ((b6.val &&& 0x3F) <<< 8) + b7.val = 0) ∧
      (∀ c0 c1 c2 c3 c4 c5 c6 c7 : u_char,
          c6.val &&& 0x3F = b6.val &&& 0x3F → c7 = b7 →
          (egress_branch (tag_common_print ndo [c0, c1, c2, c3, c4, c5, c6, c7])
              ↔ egress_branch (tag_common_print ndo [b0, b1, b2, b3, b4, b5, b6, b7])) ∧
          (ingress_branch (tag_common_print ndo [c0, c1, c2, c3, c4, c5, c6, c7])
              ↔ ingress_branch (tag_common_print ndo [b0, b1, b2, b3, b4, b5, b6, b7]))) := by
  refine ⟨LEN_8 b0 b1 b2 b3 b4 b5 b6 b7, ?_⟩
  intro ndo h0
  obtain ⟨hbe, hbi⟩ := branch_iff b0 b1 b2 b3 b4 b5 b6 b7 ndo h0
  refine ⟨hbe, hbi, ?_⟩
  intro c0 c1 c2 c3 c4 c5 c6 c7 h6 h7
  subst h7
  obtain ⟨hce, hci⟩ := branch_iff c0 c1 c2 c3 c4 c5 c6 c7 ndo h0
  rw [h6] at hce hci
  exact ⟨hce.trans hbe.symm, hci.trans hbi.symm⟩

/-- Witness for `mode_selection`: verbosity 1; the window
`88 c3 00 00 00 00 00 0a` is egress, and so is `00 00 ff ff ff ff c0 0a`, which
has the same low six bits of octet 6 and the same octet 7. -/
theorem mode_selection_witness :
    (⟨1, "", 0⟩ : netdissect_options).ndo_eflag ≠ 0 ∧
    (egress_branch (tag_common_print ⟨1, "", 0⟩ [0x88, 0xC3, 0, 0, 0, 0, 0, 0x0A])
        ↔ (((0 : u_char).val &&& 0x3F) <<< 8) + (0x0A : u_char).val ≠ 0) ∧
    (0xC0 : u_char).val &&& 0x3F = (0 : u_char).val &&& 0x3F ∧
    (egress_branch (tag_common_print ⟨1, "", 0⟩ [0, 0, 0xFF, 0xFF, 0xFF, 0xFF, 0xC0, 0x0A])
        ↔ egress_branch (tag_common_print ⟨1, "", 0⟩ [0x88, 0xC3, 0, 0, 0, 0, 0, 0x0A])) :=
  ⟨by decide,
    ((mode_selection 0x88 0xC3 0 0 0 0 0 0x0A).2 ⟨1, "", 0⟩ (by decide)).1,
    by decide,
    (((mode_selection 0x88 0xC3 0 0 0 0 0 0x0A).2 ⟨1, "", 0⟩ (by decide)).2.2
      0 0 0xFF 0xFF 0xFF 0xFF 0xC0 0x0A (by decide) rfl).1⟩

/-- Claim C2: at verbosity 0 the field printer prints nothing, so the tag
printer prints the identification token only, and its outcome is the same for
any two windows with the same octets 0 and 1. -/
theorem verbosity_zero_id_only (tbl : List tok) (ndo : netdissect_options)
    (h0 : ndo.ndo_eflag = 0) (b0 b1 b2 b3 b4 b5 b6 b7 : u_char) :
    tag_common_print ndo [b0, b1, b2, b3, b4, b5, b6, b7] = ⟨[], some ()⟩ ∧
    edsa_tag_print tbl ndo [b0, b1, b2, b3, b4, b5, b6, b7]
      = ⟨[if (b0.val <<< 8) ||| b1.val = 0x88c3 then "GSW1XX "
          else "GSW1XX Unknown 0x" ++ printf_04x ((b0.val <<< 8) ||| b1.val) ++ ", "],
         some ()⟩ ∧
    (∀ c2 c3 c4 c5 c6 c7 : u_char,
        edsa_tag_print tbl ndo [b0, b1, c2, c3, c4, c5, c6, c7]
          = edsa_tag_print tbl ndo [b0, b1, b2, b3, b4, b5, b6, b7]) := by
  have hlt : ¬ ndo.ndo_eflag > 2 := by omega
  refine ⟨tcp_verbosity_zero ndo _ h0, ?_, ?_⟩
  · rw [edsa_8, tcp_verbosity_zero ndo _ h0, if_neg hlt]; rfl
  · intro c2 c3 c4 c5 c6 c7
    rw [edsa_8, edsa_8, tcp_verbosity_zero ndo _ h0, tcp_verbosity_zero ndo _ h0]

/-- Witness for `verbosity_zero_id_only`: an egress window with every field
bit set prints `GSW1XX ` alone. -/
theorem verbosity_zero_id_only_witness :
    (⟨0, "", 0⟩ : netdissect_options).ndo_eflag = 0 ∧
    edsa_tag_print [] ⟨0, "", 0⟩ [0x88, 0xC3, 0xFF, 0xFF, 0xFF, 0xFF, 0xFF, 0xFF]
      = ⟨[if ((0x88 : u_char).val <<< 8) ||| (0xC3 : u_char).val = 0x88c3 then "GSW1XX "
          else "GSW1XX Unknown 0x"
            ++ printf_04x (((0x88 : u_char).val <<< 8) ||| (0xC3 : u_char).val) ++ ", "],
         some ()⟩ :=
  ⟨rfl, (verbosity_zero_id_only [] ⟨0, "", 0⟩ rfl 0x88 0xC3 0xFF 0xFF 0xFF 0xFF 0xFF 0xFF).2.1⟩

/-- Claim C3: ingress summary. For a window whose octets 0-1 are `88 c3` and
whose length field is zero, at verbosity 1 the tag printer prints exactly
`GSW1XX `, `Ingress Port <b2 & 0x0F>,` and `MAP <(b4 << 8) + b3>,` in decimal;
for `88 c3 05 12 34 00 00 00` the text is `GSW1XX Ingress Port 5,MAP 13330,`. -/
theorem ingress_summary (tbl : List tok) (ndo : netdissect_options)
    (h1 : ndo.ndo_eflag = 1) :
    (∀ b2 b3 b4 b5 b6 b7 : u_char, ((b6.val &&& 0x3F) <<< 8) + b7.val = 0 →
      edsa_tag_print tbl ndo [0x88, 0xC3, b2, b3, b4, b5, b6, b7]
        = ⟨["GSW1XX ",
            "Ingress Port " ++ printf_d (b2.val &&& 0x0F) ++ ",",
            "MAP " ++ printf_d ((b4.val <<< 8) + b3.val) ++ ","], some ()⟩) ∧
    edsa_tag_print tbl ndo [0x88, 0xC3, 0x05, 0x12, 0x34, 0x00, 0x00, 0x00]
      = ⟨["GSW1XX ", "Ingress Port 5,", "MAP 13330,"], some ()⟩ ∧
    text (edsa_tag_print tbl ndo [0x88, 0xC3, 0x05, 0x12, 0x34, 0x00, 0x00, 0x00])
      = "GSW1XX Ingress Port 5,MAP 13330," := by
  have hne : ndo.ndo_eflag ≠ 0 := by omega
  have hle : ¬ ndo.ndo_eflag > 1 := by omega
  have hlt : ¬ ndo.ndo_eflag > 2 := by omega
  have gen : ∀ b2 b3 b4 b5 b6 b7 : u_char, ((b6.val &&& 0x3F) <<< 8) + b7.val = 0 →
      edsa_tag_print tbl ndo [0x88, 0xC3, b2, b3, b4, b5, b6, b7]
        = ⟨["GSW1XX ",
            "Ingress Port " ++ printf_d (b2.val &&& 0x0F) ++ ",",
            "MAP " ++ printf_d ((b4.val <<< 8) + b3.val) ++ ","], some ()⟩ := by
    intro b2 b3 b4 b5 b6 b7 hl
    rw [edsa_8, tcp_ingress_summary _ _ _ _ _ _ _ _ ndo hne hle hl, if_neg hlt]
    rfl
  have ex := gen 0x05 0x12 0x34 0x00 0x00 0x00 (by decide)
  refine ⟨gen, ?_, ?_⟩
  · rw [ex]; decide
  · rw [text, ex]; decide

/-- Witness for `ingress_summary`: verbosity 1 and the window
`88 c3 05 12 34 00 00 00`. -/
theorem ingress_summary_witness :
    (⟨1, "", 0⟩ : netdissect_options).ndo_eflag = 1 ∧
    (((0xC0 : u_char).val &&& 0x3F) <<< 8) + (0x00 : u_char).val = 0 ∧
    edsa_tag_print [] ⟨1, "", 0⟩ [0x88, 0xC3, 0xFF, 0xFF, 0xFF, 0xFF, 0xC0, 0x00]
      = ⟨["GSW1XX ", "Ingress Port 15,", "MAP 65535,"], some ()⟩ ∧
    text (edsa_tag_print [] ⟨1, "", 0⟩ [0x88, 0xC3, 0x05, 0x12, 0x34, 0x00, 0x00, 0x00])
      = "GSW1XX Ingress Port 5,MAP 13330," :=
  ⟨rfl, by decide,
    ((ingress_summary [] ⟨1, "", 0⟩ rfl).1 0xFF 0xFF 0xFF 0xFF 0xC0 0x00 (by decide)).trans
      (by decide),
    (ingress_summary [] ⟨1, "", 0⟩ rfl).2.2⟩

/-- Claim C4: egress summary. For a window whose octets 0-1 are `88 c3` and
whose length field is non-zero, at verbosity 1 the tag printer prints exactly
`GSW1XX ` and the single field token `Egress Port <b2 & 0x0F>,` (no detail
field, no length token); for `88 c3 00 00 00 00 00 0a` the text is
`GSW1XX Egress Port 0,`. -/
theorem egress_summary (tbl : List tok) (ndo : netdissect_options)
    (h1 : ndo.ndo_eflag = 1) :
    (∀ b2 b3 b4 b5 b6 b7 : u_char, ((b6.val &&& 0x3F) <<< 8) + b7.val ≠ 0 →
      edsa_tag_print tbl ndo [0x88, 0xC3, b2, b3, b4, b5, b6, b7]
        = ⟨["GSW1XX ", "Egress Port " ++ printf_d (b2.val &&& 0x0F) ++ ","], some ()⟩) ∧
    edsa_tag_print tbl ndo [0x88, 0xC3, 0x00, 0x00, 0x00, 0x00, 0x00, 0x0A]
      = ⟨["GSW1XX ", "Egress Port 0,"], some ()⟩ ∧
    text (edsa_tag_print tbl ndo [0x88, 0xC3, 0x00, 0x00, 0x00, 0x00, 0x00, 0x0A])
      = "GSW1XX Egress Port 0," := by
  have hne : ndo.ndo_eflag ≠ 0 := by omega
  have hle : ¬ ndo.ndo_eflag > 1 := by omega
  have hlt : ¬ ndo.ndo_eflag > 2 := by omega
  have gen : ∀ b2 b3 b4 b5 b6 b7 : u_char, ((b6.val &&& 0x3F) <<< 8) + b7.val ≠ 0 →
      edsa_tag_print tbl ndo [0x88, 0xC3, b2, b3, b4, b5, b6, b7]
        = ⟨["GSW1XX ", "Egress Port " ++ printf_d (b2.val &&& 0x0F) ++ ","], some ()⟩ := by
    intro b2 b3 b4 b5 b6 b7 hl
    rw [edsa_8, tcp_egress_summary _ _ _ _ _ _ _ _ ndo hne hle hl, if_neg hlt]
    rfl
  have ex := gen 0x00 0x00 0x00 0x00 0x00 0x0A (by decide)
  refine ⟨gen, ?_, ?_⟩
  · rw [ex]; decide
  · rw [text, ex]; decide

/-- Witness for `egress_summary`: verbosity 1 and the window
`88 c3 00 00 00 00 00 0a`. -/
theorem egress_summary_witness :
    (⟨1, "", 0⟩ : netdissect_options).ndo_eflag = 1 ∧
    (((0x01 : u_char).val &&& 0x3F) <<< 8) + (0x00 : u_char).val ≠ 0 ∧
    edsa_tag_print [] ⟨1, "", 0⟩ [0x88, 0xC3, 0xFF, 0xFF, 0xFF, 0xFF, 0x01, 0x00]
      = ⟨["GSW1XX ", "Egress Port 15,"], some ()⟩ ∧
    text (edsa_tag_print [] ⟨1, "", 0⟩ [0x88, 0xC3, 0x00, 0x00, 0x00, 0x00, 0x00, 0x0A])
      = "GSW1XX Egress Port 0," :=
  ⟨rfl, by decide,
    ((egress_summary [] ⟨1, "", 0⟩ rfl).1 0xFF 0xFF 0xFF 0xFF 0x01 0x00 (by decide)).trans
      (by decide),
    (egress_summary [] ⟨1, "", 0⟩ rfl).2.2⟩

/-! ## The detail level -/

/-- Claim C5: egress detail order. For every egress window and every verbosity
above 1 the field printer prints, in this order and nothing else: Egress Port
`b2 & 0x0F`, TTC, TCE `(b2 & 0x40) >> 6`, TC `(b2 & 0xF0) >> 4`, EPN `b2 & 0x0F`,
POE `(b2 & 0x80) >> 7`, then IV4 `(b2 & 0x40) >> 6` and IPO `b3 & 0x3F` only when
`b3 & 0x3F` is non-zero, and last Len `((b6 & 0x3F) << 8) + b7`. -/
theorem egress_detail_order (ndo : netdissect_options) (h1 : ndo.ndo_eflag > 1)
    (b0 b1 b2 b3 b4 b5 b6 b7 : u_char)
    (hl : ((b6.val &&& 0x3F) <<< 8) + b7.val ≠ 0) :
    tag_common_print ndo [b0, b1, b2, b3, b4, b5, b6, b7]
      = ⟨["Egress Port " ++ printf_d (b2.val &&& 0x0F) ++ ",",
          "TTC " ++ printf_d (b2.val &&& 0x08) ++ ",",
          "TCE " ++ printf_d ((b2.val &&& 0x40) >>> 6) ++ ",",
          "TC " ++ printf_d ((b2.val &&& 0xF0) >>> 4) ++ ",",
          "EPN " ++ printf_d (b2.val &&& 0x0F) ++ ",",
          "POE " ++ printf_d ((b2.val &&& 0x80) >>> 7) ++ ","]
         ++ (if b3.val &&& 0x3F ≠ 0 then
              ["IV4 " ++ printf_d ((b2.val &&& 0x40) >>> 6) ++ ",",
               "IPO " ++ printf_d (b3.val &&& 0x3F) ++ ","] else [])
         ++ ["Len " ++ printf_d (((b6.val &&& 0x3F) <<< 8) + b7.val) ++ ","], some ()⟩ :=
  tcp_egress_detail b0 b1 b2 b3 b4 b5 b6 b7 ndo h1 hl

/-- Witness for `egress_detail_order`: verbosity 2 and the window
`88 c3 c5 12 34 00 00 0a`. -/
theorem egress_detail_order_witness :
    (⟨2, "", 0⟩ : netdissect_options).ndo_eflag > 1 ∧
    (((0x00 : u_char).val &&& 0x3F) <<< 8) + (0x0A : u_char).val ≠ 0 ∧
    tag_common_print ⟨2, "", 0⟩ [0x88, 0xC3, 0xC5, 0x12, 0x34, 0x00, 0x00, 0x0A]
      = ⟨["Egress Port 5,", "TTC 0,", "TCE 1,", "TC 12,", "EPN 5,", "POE 1,",
          "IV4 1,", "IPO 18,", "Len 10,"], some ()⟩ :=
  ⟨by decide, by decide,
    (egress_detail_order ⟨2, "", 0⟩ (by decide) 0x88 0xC3 0xC5 0x12 0x34 0x00 0x00 0x0A
      (by decide)).trans (by decide)⟩

/-- Claim C6: ingress detail order. For every ingress window (length field
zero) and every verbosity above 1 the field printer prints exactly seven tokens,
in this order: Ingress Port `b2 & 0x0F`, MAP `(b4 << 8) + b3`, PME
`(b2 & 0x80) >> 7`, TCE `(b2 & 0x40) >> 6`, TTC, FNL `(b2 & 0x10) >> 4` and irq
(from bit `0x10` of octet 5); no TSE, Len or egress-only token is among them. -/
theorem ingress_detail_order (ndo : netdissect_options) (h1 : ndo.ndo_eflag > 1)
    (b0 b1 b2 b3 b4 b5 b6 b7 : u_char)
    (hl : ((b6.val &&& 0x3F) <<< 8) + b7.val = 0) :
    tag_common_print ndo [b0, b1, b2, b3, b4, b5, b6, b7]
      = ⟨["Ingress Port " ++ printf_d (b2.val &&& 0x0F) ++ ",",
          "MAP " ++ printf_d ((b4.val <<< 8) + b3.val) ++ ",",
          "PME " ++ printf_d ((b2.val &&& 0x80) >>> 7) ++ ",",
          "TCE " ++ printf_d ((b2.val &&& 0x40) >>> 6) ++ ",",
          "TTC " ++ printf_d (b2.val &&& 0x08) ++ ",",
          "FNL " ++ printf_d ((b2.val &&& 0x10) >>> 4) ++ ",",
          "irq " ++ printf_d ((b5.val &&& 0x10) >>> 3) ++ ","], some ()⟩ ∧
    (tag_common_print ndo [b0, b1, b2, b3, b4, b5, b6, b7]).out.length = 7 ∧
    (∀ l ∈ ["TSE", "Len", "Egress Port", "TC", "EPN", "POE", "IV4", "IPO"], ∀ v,
      field_token l v ∉ (tag_common_print ndo [b0, b1, b2, b3, b4, b5, b6, b7]).out) := by
  rw [tcp_ingress_detail b0 b1 b2 b3 b4 b5 b6 b7 ndo h1 hl]
  refine ⟨rfl, rfl, ?_⟩
  intro l hmem v
  show field_token l v ∉ List.zipWith field_token
    ["Ingress Port", "MAP", "PME", "TCE", "TTC", "FNL", "irq"]
    [b2.val &&& 0x0F, (b4.val <<< 8) + b3.val, (b2.val &&& 0x80) >>> 7,
     (b2.val &&& 0x40) >>> 6, b2.val &&& 0x08, (b2.val &&& 0x10) >>> 4,
     (b5.val &&& 0x10) >>> 3]
  apply not_mem_zipWith
  revert l
  decide

/-- Witness for `ingress_detail_order`: verbosity 2 and the window
`88 c3 f5 12 34 10 00 00`. -/
theorem ingress_detail_order_witness :
    (⟨2, "", 0⟩ : netdissect_options).ndo_eflag > 1 ∧
    (((0x00 : u_char).val &&& 0x3F) <<< 8) + (0x00 : u_char).val = 0 ∧
    tag_common_print ⟨2, "", 0⟩ [0x88, 0xC3, 0xF5, 0x12, 0x34, 0x10, 0x00, 0x00]
      = ⟨["Ingress Port 5,", "MAP 13330,", "PME 1,", "TCE 1,", "TTC 0,", "FNL 1,",
          "irq 2,"], some ()⟩ :=
  ⟨by decide, by decide,
    (ingress_detail_order ⟨2, "", 0⟩ (by decide) 0x88 0xC3 0xF5 0x12 0x34 0x10 0x00 0x00
      (by decide)).1.trans (by decide)⟩

/-! ## The `EG_IPO` guard -/

/-- Outside an egress window printed in detail with a non-zero `EG_IPO`, the
field printer prints no `IV4` and no `IPO` token. -/
theorem guard_absent (ndo : netdissect_options) (b0 b1 b2 b3 b4 b5 b6 b7 : u_char)
    (l : String) (hl : l = "IV4" ∨ l = "IPO")
    (h : ¬ (((b6.val &&& 0x3F) <<< 8) + b7.val ≠ 0 ∧ ndo.ndo_eflag > 1
          ∧ b3.val &&& 0x3F ≠ 0)) (v : Nat) :
    field_token l v ∉ (tag_common_print ndo [b0, b1, b2, b3, b4, b5, b6, b7]).out := by
  by_cases h0 : ndo.ndo_eflag = 0
  · rw [tcp_verbosity_zero ndo _ h0]; simp
  by_cases h1 : ndo.ndo_eflag > 1
  · by_cases hlen : ((b6.val &&& 0x3F) <<< 8) + b7.val = 0
    · rw [tcp_ingress_detail b0 b1 b2 b3 b4 b5 b6 b7 ndo h1 hlen]
      show field_token l v ∉ List.zipWith field_token
        ["Ingress Port", "MAP", "PME", "TCE", "TTC", "FNL", "irq"]
        [b2.val &&& 0x0F, (b4.val <<< 8) + b3.val, (b2.val &&& 0x80) >>> 7,
         (b2.val &&& 0x40) >>> 6, b2.val &&& 0x08, (b2.val &&& 0x10) >>> 4,
         (b5.val &&& 0x10) >>> 3]
      apply not_mem_zipWith
      rcases hl with rfl | rfl <;> decide
    · have hipo : b3.val &&& 0x3F = 0 := by
        by_contra hne
        exact h ⟨hlen, h1, hne⟩
      rw [tcp_egress_detail b0 b1 b2 b3 b4 b5 b6 b7 ndo h1 hlen, hipo]
      show field_token l v ∉ List.zipWith field_token
        ["Egress Port", "TTC", "TCE", "TC", "EPN", "POE", "Len"]
        [b2.val &&& 0x0F, b2.val &&& 0x08, (b2.val &&& 0x40) >>> 6, (b2.val &&& 0xF0) >>> 4,
         b2.val &&& 0x0F, (b2.val &&& 0x80) >>> 7, ((b6.val &&& 0x3F) <<< 8) + b7.val]
      apply not_mem_zipWith
      rcases hl with rfl | rfl <;> decide
  · by_cases hlen : ((b6.val &&& 0x3F) <<< 8) + b7.val = 0
    · rw [tcp_ingress_summary b0 b1 b2 b3 b4 b5 b6 b7 ndo h0 h1 hlen]
      show field_token l v ∉ List.zipWith field_token ["Ingress Port", "MAP"]
        [b2.val &&& 0x0F, (b4.val <<< 8) + b3.val]
      apply not_mem_zipWith
      rcases hl with rfl | rfl <;> decide
    · rw [tcp_egress_summary b0 b1 b2 b3 b4 b5 b6 b7 ndo h0 h1 hlen]
      show field_token l v ∉ List.zipWith field_token ["Egress Port"] [b2.val &&& 0x0F]
      apply not_mem_zipWith
      rcases hl with rfl | rfl <;> decide

/-- In an egress window printed in detail with a non-zero `EG_IPO`, both tokens
are printed, and the `IPO` token does not carry the value 0. -/
theorem guard_present (ndo : netdissect_options) (b0 b1 b2 b3 b4 b5 b6 b7 : u_char)
    (hlen : ((b6.val &&& 0x3F) <<< 8) + b7.val ≠ 0) (h1 : ndo.ndo_eflag > 1)
    (hipo : b3.val &&& 0x3F ≠ 0) :
    field_token "IV4" ((b2.val &&& 0x40) >>> 6)
        ∈ (tag_common_print ndo [b0, b1, b2, b3, b4, b5, b6, b7]).out ∧
    field_token "IPO" (b3.val &&& 0x3F)
        ∈ (tag_common_print ndo [b0, b1, b2, b3, b4, b5, b6, b7]).out ∧
    field_token "IPO" 0 ∉ (tag_common_print ndo [b0, b1, b2, b3, b4, b5, b6, b7]).out := by
  have hout : (tag_common_print ndo [b0, b1, b2, b3, b4, b5, b6, b7]).out
      = List.zipWith field_token
          ["Egress Port", "TTC", "TCE", "TC", "EPN", "POE", "IV4"]
          [b2.val &&& 0x0F, b2.val &&& 0x08, (b2.val &&& 0x40) >>> 6,
           (b2.val &&& 0xF0) >>> 4, b2.val &&& 0x0F, (b2.val &&& 0x80) >>> 7,
           (b2.val &&& 0x40) >>> 6]
        ++ [field_token "IPO" (b3.val &&& 0x3F)]
        ++ List.zipWith field_token ["Len"] [((b6.val &&& 0x3F) <<< 8) + b7.val] := by
    rw [tcp_egress_detail b0 b1 b2 b3 b4 b5 b6 b7 ndo h1 hlen, if_pos hipo]
    rfl
  rw [hout]
  refine ⟨?_, ?_, ?_⟩
  · simp [List.zipWith]
  · simp
  · intro hmem
    rw [List.mem_append, List.mem_append, List.mem_singleton] at hmem
    rcases hmem with (hm | hm) | hm
    · exact not_mem_zipWith "IPO" 0 _ _ (by decide) hm
    · have hlt : b3.val &&& 0x3F < 64 := Nat.and_lt_two_pow b3.val (n := 6) (by decide)
      exact hipo (printf_d_zero _ hlt (field_token_val _ _ _ hm))
    · exact not_mem_zipWith "IPO" 0 _ _ (by decide) hm

/-- The identification string is neither an `IV4` nor an `IPO` token, so such a
token is in the tag printer's log exactly when it is in the field printer's. -/
theorem guard_mem_edsa (tbl : List tok) (ndo : netdissect_options)
    (b0 b1 b2 b3 b4 b5 b6 b7 : u_char) (l : String) (hl : l = "IV4" ∨ l = "IPO") (v : Nat) :
    field_token l v ∈ (edsa_tag_print tbl ndo [b0, b1, b2, b3, b4, b5, b6, b7]).out
      ↔ field_token l v ∈ (tag_common_print ndo [b0, b1, b2, b3, b4, b5, b6, b7]).out := by
  rw [edsa_8]
  simp only [List.mem_cons]
  constructor
  · rintro (h | h)
    · exfalso
      have key : ∀ a x y : String, l ++ x = a ++ y →
          ¬ (l.data <+: a.data ∨ a.data <+: l.data) → False :=
        fun a x y he hn => hn (str_prefix_or l a x y he)
      split_ifs at h
      · simp only [field_token, String.append_assoc] at h
        exact key _ _ _ h (by rcases hl with rfl | rfl <;> decide)
      · rw [← String.append_empty "GSW1XX "] at h
        simp only [field_token, String.append_assoc] at h
        exact key _ _ _ h (by rcases hl with rfl | rfl <;> decide)
      · simp only [field_token, String.append_assoc] at h
        exact key _ _ _ h (by rcases hl with rfl | rfl <;> decide)
    · exact h
  · exact fun h => Or.inr h

/-- Claim C7: the `EG_IPO` guard. For every eight-octet window and every
verbosity, the field printer prints an `IV4` token if and only if it prints an
`IPO` token, and it prints them if and only if the window is egress, the
verbosity is above 1 and `b3 & 0x3F` is non-zero (the values then being
`(b2 & 0x40) >> 6` and `b3 & 0x3F`); when `b3 & 0x3F` is zero neither is printed,
and an `IPO` token with value 0 is never printed. The identification string is
not such a token, so the same holds of the whole log of the tag printer. -/
theorem eg_ipo_guard (ndo : netdissect_options) (b0 b1 b2 b3 b4 b5 b6 b7 : u_char) :
    (∀ (tbl : List tok) (l : String), l = "IV4" ∨ l = "IPO" → ∀ v,
      (field_token l v ∈ (edsa_tag_print tbl ndo [b0, b1, b2, b3, b4, b5, b6, b7]).out
        ↔ field_token l v ∈ (tag_common_print ndo [b0, b1, b2, b3, b4, b5, b6, b7]).out)) ∧
    ((∃ v, field_token "IV4" v ∈ (tag_common_print ndo [b0, b1, b2, b3, b4, b5, b6, b7]).out)
      ↔ (∃ v, field_token "IPO" v
            ∈ (tag_common_print ndo [b0, b1, b2, b3, b4, b5, b6, b7]).out)) ∧
    ((∃ v, field_token "IPO" v ∈ (tag_common_print ndo [b0, b1, b2, b3, b4, b5, b6, b7]).out)
      ↔ (((b6.val &&& 0x3F) <<< 8) + b7.val ≠ 0 ∧ ndo.ndo_eflag > 1
          ∧ b3.val &&& 0x3F ≠ 0)) ∧
    ((((b6.val &&& 0x3F) <<< 8) + b7.val ≠ 0 ∧ ndo.ndo_eflag > 1 ∧ b3.val &&& 0x3F ≠ 0) →
      field_token "IV4" ((b2.val &&& 0x40) >>> 6)
          ∈ (tag_common_print ndo [b0, b1, b2, b3, b4, b5, b6, b7]).out ∧
      field_token "IPO" (b3.val &&& 0x3F)
          ∈ (tag_common_print ndo [b0, b1, b2, b3, b4, b5, b6, b7]).out) ∧
    (b3.val &&& 0x3F = 0 →
      (∀ v, field_token "IV4" v ∉ (tag_common_print ndo [b0, b1, b2, b3, b4, b5, b6, b7]).out) ∧
      (∀ v, field_token "IPO" v
          ∉ (tag_common_print ndo [b0, b1, b2, b3, b4, b5, b6, b7]).out)) ∧
    field_token "IPO" 0 ∉ (tag_common_print ndo [b0, b1, b2, b3, b4, b5, b6, b7]).out := by
  refine ⟨fun tbl l hl v => guard_mem_edsa tbl ndo b0 b1 b2 b3 b4 b5 b6 b7 l hl v, ?_⟩
  by_cases hc : ((b6.val &&& 0x3F) <<< 8) + b7.val ≠ 0 ∧ ndo.ndo_eflag > 1
      ∧ b3.val &&& 0x3F ≠ 0
  · obtain ⟨hiv4, hipo, hzero⟩ := guard_present ndo b0 b1 b2 b3 b4 b5 b6 b7 hc.1 hc.2.1 hc.2.2
    exact ⟨⟨fun _ => ⟨_, hipo⟩, fun _ => ⟨_, hiv4⟩⟩, ⟨fun _ => hc, fun _ => ⟨_, hipo⟩⟩,
      fun _ => ⟨hiv4, hipo⟩, fun h => absurd h hc.2.2, hzero⟩
  · have hno4 := guard_absent ndo b0 b1 b2 b3 b4 b5 b6 b7 "IV4" (Or.inl rfl) hc
    have hnoO := guard_absent ndo b0 b1 b2 b3 b4 b5 b6 b7 "IPO" (Or.inr rfl) hc
    refine ⟨⟨?_, ?_⟩, ⟨?_, fun h => absurd h hc⟩, fun h => absurd h hc, fun _ => ⟨hno4, hnoO⟩,
      hnoO 0⟩
    · rintro ⟨v, hv⟩; exact absurd hv (hno4 v)
    · rintro ⟨v, hv⟩; exact absurd hv (hnoO v)
    · rintro ⟨v, hv⟩; exact absurd hv (hnoO v)

/-- Witness for `eg_ipo_guard`: at verbosity 2 the egress window
`88 c3 c5 12 34 00 00 0a` (`b3 & 0x3F` = 18) prints `IV4 1,` and `IPO 18,`; the
window `88 c3 c5 c0 34 00 00 0a` (`b3 & 0x3F` = 0) prints neither. -/
theorem eg_ipo_guard_witness :
    (field_token "IV4" 1
        ∈ (tag_common_print ⟨2, "", 0⟩ [0x88, 0xC3, 0xC5, 0x12, 0x34, 0x00, 0x00, 0x0A]).out ∧
      field_token "IPO" 18
        ∈ (tag_common_print ⟨2, "", 0⟩ [0x88, 0xC3, 0xC5, 0x12, 0x34, 0x00, 0x00, 0x0A]).out) ∧
    (∀ v, field_token "IPO" v
        ∉ (tag_common_print ⟨2, "", 0⟩ [0x88, 0xC3, 0xC5, 0xC0, 0x34, 0x00, 0x00, 0x0A]).out) :=
  ⟨(eg_ipo_guard ⟨2, "", 0⟩ 0x88 0xC3 0xC5 0x12 0x34 0x00 0x00 0x0A).2.2.2.1
      ⟨by decide, by decide, by decide⟩,
    ((eg_ipo_guard ⟨2, "", 0⟩ 0x88 0xC3 0xC5 0xC0 0x34 0x00 0x00 0x0A).2.2.2.2.1
      (by decide)).2⟩

/-! ## The identification token -/

theorem tok2str_unknown (tbl : List tok) (fmt : String) (v : Nat)
    (h : ∀ t ∈ tbl, t.1 ≠ v) : tok2str tbl fmt v = fmt := by
  have hnone : tbl.find? (fun t => t.1 == v) = none := by
    rw [List.find?_eq_none]
    intro t ht
    simpa using h t ht
  simp [tok2str, hnone]

theorem tok2str_known (tbl : List tok) (fmt : String) (v : Nat) (t : tok)
    (ht : t ∈ tbl) (hv : t.1 = v) : ∃ t2 ∈ tbl, t2.1 = v ∧ tok2str tbl fmt v = t2.2 := by
  cases hfind : tbl.find? (fun t => t.1 == v) with
  | none =>
    rw [List.find?_eq_none] at hfind
    have := hfind t ht
    simp [hv] at this
  | some t2 =>
    refine ⟨t2, List.mem_of_find?_eq_some hfind, ?_, ?_⟩
    · simpa using List.find?_some hfind
    · simp [tok2str, hfind]

/-- Claim C8: the identification token. For every eight-octet window, with
`E = (b0 << 8) | b1` (the big-endian value `256 * b0 + b1`), the tag printer
prints first one identification string and then what the field printer prints.
For verbosity above 2 the string is `MaxLinear ethertype 0x<E> (<name>), `, the
name being the table's name for `E`, or `Unknown` when no entry has value `E`;
otherwise it is `GSW1XX ` exactly when `b0 = 0x88` and `b1 = 0xC3`, that is
`E = 0x88C3`, and `GSW1XX Unknown 0x<E>, ` if not. `<E>` is four lowercase
hexadecimal digits. -/
theorem identification_token (tbl : List tok) (ndo : netdissect_options)
    (b0 b1 b2 b3 b4 b5 b6 b7 : u_char) :
    edsa_tag_print tbl ndo [b0, b1, b2, b3, b4, b5, b6, b7]
      = ⟨(if ndo.ndo_eflag > 2 then
            "MaxLinear ethertype 0x" ++ printf_04x ((b0.val <<< 8) ||| b1.val) ++ " ("
              ++ tok2str tbl "Unknown" ((b0.val <<< 8) ||| b1.val) ++ "), "
          else if b0 = 0x88 ∧ b1 = 0xC3 then "GSW1XX "
          else "GSW1XX Unknown 0x" ++ printf_04x ((b0.val <<< 8) ||| b1.val) ++ ", ")
          :: (tag_common_print ndo [b0, b1, b2, b3, b4, b5, b6, b7]).out,
         (tag_common_print ndo [b0, b1, b2, b3, b4, b5, b6, b7]).val⟩ ∧
    (b0.val <<< 8) ||| b1.val = 256 * b0.val + b1.val ∧
    ((b0.val <<< 8) ||| b1.val = 0x88C3 ↔ b0 = 0x88 ∧ b1 = 0xC3) ∧
    (∀ x : String, "GSW1XX Unknown 0x" ++ x ++ ", " ≠ "GSW1XX ") ∧
    printf_04x ((b0.val <<< 8) ||| b1.val)
      = String.mk [Nat.digitChar (((b0.val <<< 8) ||| b1.val) / 4096 % 16),
          Nat.digitChar (((b0.val <<< 8) ||| b1.val) / 256 % 16),
          Nat.digitChar (((b0.val <<< 8) ||| b1.val) / 16 % 16),
          Nat.digitChar (((b0.val <<< 8) ||| b1.val) % 16)] ∧
    (∀ d : Fin 16, Nat.digitChar d.val ∈ "0123456789abcdef".data) ∧
    ((∀ t ∈ tbl, t.1 ≠ (b0.val <<< 8) ||| b1.val) →
      tok2str tbl "Unknown" ((b0.val <<< 8) ||| b1.val) = "Unknown") ∧
    (∀ t ∈ tbl, t.1 = (b0.val <<< 8) ||| b1.val →
      ∃ t2 ∈ tbl, t2.1 = (b0.val <<< 8) ||| b1.val
        ∧ tok2str tbl "Unknown" ((b0.val <<< 8) ||| b1.val) = t2.2) := by
  have hE : (b0.val <<< 8) ||| b1.val < 65536 := by
    rw [be16]
    have h0 := b0.isLt
    have h1 := b1.isLt
    omega
  have hne : ∀ x : String, "GSW1XX Unknown 0x" ++ x ++ ", " ≠ "GSW1XX " := by
    intro x h
    have hlen := congrArg String.length h
    simp only [String.length_append] at hlen
    have e1 : "GSW1XX Unknown 0x".length = 17 := by decide
    have e2 : ", ".length = 2 := by decide
    have e3 : "GSW1XX ".length = 7 := by decide
    omega
  refine ⟨?_, be16 b0 b1, tag_iff b0 b1, hne, hex4 _ hE, hexdigit_lower,
    tok2str_unknown tbl _ _, fun t ht hv => tok2str_known tbl _ _ t ht hv⟩
  rw [edsa_8]
  by_cases ht : (b0.val <<< 8) ||| b1.val = GSW1XX_TAG
  · rw [if_pos ht, if_pos ((tag_iff b0 b1).mp ht)]
  · rw [if_neg ht, if_neg (fun h => ht ((tag_iff b0 b1).mpr h))]

/-- Witness for `identification_token`: at verbosity 3, with a table naming
`0x88c3`, the window `88 c3 00 00 00 00 00 0a` is identified by name, and the
window `08 c3 00 00 00 00 00 0a` as `Unknown`. -/
theorem identification_token_witness :
    edsa_tag_print [(0x88c3, "GSW")] ⟨3, "", 0⟩ [0x88, 0xC3, 0, 0, 0, 0, 0, 0x0A]
      = ⟨["MaxLinear ethertype 0x88c3 (GSW), ", "Egress Port 0,", "TTC 0,", "TCE 0,",
          "TC 0,", "EPN 0,", "POE 0,", "Len 10,"], some ()⟩ ∧
    tok2str [(0x88c3, "GSW")] "Unknown" (((0x08 : u_char).val <<< 8) ||| (0xC3 : u_char).val)
      = "Unknown" :=
  ⟨(identification_token [(0x88c3, "GSW")] ⟨3, "", 0⟩ 0x88 0xC3 0 0 0 0 0 0x0A).1.trans
      (by decide),
    (identification_token [(0x88c3, "GSW")] ⟨3, "", 0⟩ 0x08 0xC3 0 0 0 0 0 0x0A).2.2.2.2.2.2.1
      (by decide)⟩

/-! ## Field widths -/

/-- Claim C9 (violated by the code for TTC and IE): `GSW1XX_TTC` is
`TOK(tag, 2, 0x08, 0)`, a one-bit mask that is not shifted down, so on a window
with octet 2 equal to `0x08` it yields 8, which is not below `2 ^ 1`; `GSW1XX_IE`
is `TOK(tag, 5, 0x10, 3)`, shifted by one less than the bit position, so on a
window with octet 5 equal to `0x10` it yields 2; at verbosity 2 the window
`00 00 08 00 00 10 00 00` is printed with `TTC 8,` and `irq 2,`. Every named
field reads an
octet index in `[0, 7]`, and every named field other than these two yields a
value below `2 ^ k`, `k` being the number of bits set in its mask. -/
theorem field_width_violated :
    (GSW1XX_TTC = fun tag => TOK tag 2 0x08 0) ∧
    GSW1XX_TTC [0, 0, 0x08, 0, 0, 0x10, 0, 0] = ⟨[], some 8⟩ ∧
    bits_set 0x08 = 1 ∧ ¬ 8 < 2 ^ bits_set 0x08 ∧
    (GSW1XX_IE = fun tag => TOK tag 5 0x10 3) ∧
    GSW1XX_IE [0, 0, 0x08, 0, 0, 0x10, 0, 0] = ⟨[], some 2⟩ ∧
    bits_set 0x10 = 1 ∧ ¬ 2 < 2 ^ bits_set 0x10 ∧
    tag_common_print ⟨2, "", 0⟩ [0, 0, 0x08, 0, 0, 0x10, 0, 0]
      = ⟨["Ingress Port 8,", "MAP 0,", "PME 0,", "TCE 0,", "TTC 8,", "FNL 0,", "irq 2,"],
         some ()⟩ ∧
    (∀ f ∈ named_fields, f.byte ≤ 7) ∧
    (∀ b0 b1 b2 b3 b4 b5 b6 b7 : u_char, ∀ f ∈ named_fields,
      f.name ≠ "TTC" → f.name ≠ "IE" →
      ∃ v, TOK [b0, b1, b2, b3, b4, b5, b6, b7] f.byte f.mask f.shift = ⟨[], some v⟩
        ∧ v < 2 ^ bits_set f.mask) := by
  refine ⟨rfl, by decide, by decide, by decide, rfl, by decide, by decide, by decide,
    by decide, by decide, ?_⟩
  intro b0 b1 b2 b3 b4 b5 b6 b7 f hf hTTC hIE
  have hw : f.mask >>> f.shift < 2 ^ bits_set f.mask := by
    revert f
    decide
  have hb : f.byte ≤ 7 := by
    revert f
    decide
  obtain ⟨v, hv⟩ : ∃ b : Nat, GET_U_1 [b0, b1, b2, b3, b4, b5, b6, b7] f.byte = ⟨[], some b⟩ := by
    generalize f.byte = i at hb
    interval_cases i <;> exact ⟨_, rfl⟩
  refine ⟨(v &&& f.mask) >>> f.shift, ?_, lt_of_le_of_lt (tok_bound _ _ _) hw⟩
  simp [TOK, hv]

/-! ## Truncated windows -/

/-- With fewer than eight octets available the length probe is aborted: octet 7,
and for six octets or fewer already octet 6, is out of bounds. (The two reads
print nothing, so the order in which C evaluates them does not matter.) -/
theorem LEN_short (p : List u_char) (h : p.length < 8) : GSW1XX_LEN p = ⟨[], none⟩ := by
  have h7 : p.get? 7 = none := List.get?_eq_none.mpr (by omega)
  unfold GSW1XX_LEN GSW1XX_LEN_HIGH GSW1XX_LEN_LOW TOK GET_U_1
  rw [h7]
  cases p.get? 6 <;> rfl

theorem tcp_short (ndo : netdissect_options) (p : List u_char) (h : p.length < 8)
    (h0 : ndo.ndo_eflag ≠ 0) : tag_common_print ndo p = ⟨[], none⟩ := by
  unfold tag_common_print
  rw [LEN_short p h]
  simp [h0]

/-- The tag printer on a window of at least two octets. -/
theorem edsa_cons (tbl : List tok) (ndo : netdissect_options) (b0 b1 : u_char)
    (rest : List u_char) :
    edsa_tag_print tbl ndo (b0 :: b1 :: rest)
      = ⟨(if ndo.ndo_eflag > 2 then
            "MaxLinear ethertype 0x" ++ printf_04x ((b0.val <<< 8) ||| b1.val) ++ " ("
              ++ tok2str tbl "Unknown" ((b0.val <<< 8) ||| b1.val) ++ "), "
          else if (b0.val <<< 8) ||| b1.val = GSW1XX_TAG then "GSW1XX "
          else "GSW1XX Unknown 0x" ++ printf_04x ((b0.val <<< 8) ||| b1.val) ++ ", ")
          :: (tag_common_print ndo (b0 :: b1 :: rest)).out,
         (tag_common_print ndo (b0 :: b1 :: rest)).val⟩ := by
  unfold edsa_tag_print
  have hread : GET_BE_U_2 (b0 :: b1 :: rest) = ⟨[], some ((b0.val <<< 8) ||| b1.val)⟩ := rfl
  simp only [hread]
  by_cases h2 : ndo.ndo_eflag > 2
  · simp [ND_PRINT, h2]
  · by_cases ht : (b0.val <<< 8) ||| b1.val = GSW1XX_TAG <;> simp [ND_PRINT, h2, ht]

theorem edsa_lt_two (tbl : List tok) (ndo : netdissect_options) (p : List u_char)
    (h : p.length < 2) : edsa_tag_print tbl ndo p = ⟨[], none⟩ := by
  match p, h with
  | [], _ => rfl
  | [_], _ => rfl
  | _ :: _ :: _, h => exact absurd h (by simp only [List.length_cons]; omega)

/-- No identification string is a field token. -/
theorem id_not_field_token (l : String) (hl : l ∈ LABELS) (v : Nat) (c : Prop)
    [Decidable c] (c2 : Prop) [Decidable c2] (x y z : String) :
    field_token l v ≠ (if c then "MaxLinear ethertype 0x" ++ x ++ " (" ++ y ++ "), "
      else if c2 then "GSW1XX " else "GSW1XX Unknown 0x" ++ z ++ ", ") := by
  intro h
  have key : ∀ a s t : String, l ++ s = a ++ t →
      ¬ (l.data <+: a.data ∨ a.data <+: l.data) → False :=
    fun a s t he hn => hn (str_prefix_or l a s t he)
  have k1 : ∀ a ∈ LABELS, ¬ (a.data <+: "MaxLinear ethertype 0x".data
      ∨ "MaxLinear ethertype 0x".data <+: a.data) := by decide
  have k2 : ∀ a ∈ LABELS, ¬ (a.data <+: "GSW1XX ".data ∨ "GSW1XX ".data <+: a.data) := by
    decide
  have k3 : ∀ a ∈ LABELS, ¬ (a.data <+: "GSW1XX Unknown 0x".data
      ∨ "GSW1XX Unknown 0x".data <+: a.data) := by decide
  split_ifs at h
  · simp only [field_token, String.append_assoc] at h
    exact key _ _ _ h (k1 l hl)
  · rw [← String.append_empty "GSW1XX "] at h
    simp only [field_token, String.append_assoc] at h
    exact key _ _ _ h (k2 l hl)
  · simp only [field_token, String.append_assoc] at h
    exact key _ _ _ h (k3 l hl)

/-- Claim C10 as amended: truncated tag. For every window with fewer than
eight octets available, every read being bounds-checked: the field printer
prints no field token at any verbosity; at every non-zero verbosity the field
printer is aborted at its first read, so the tag printer ends in a truncation
failure having printed at most the identification token; at verbosity 0 the tag
printer reads octets 0 and 1 only, so it fails exactly when fewer than two
octets are available and otherwise prints the identification token and returns
normally. With fewer than two octets the tag printer prints nothing at all, and
at no verbosity does its log hold a field token. -/
theorem truncated_tag (tbl : List tok) (ndo : netdissect_options) (p : List u_char)
    (h : p.length < 8) :
    (tag_common_print ndo p).out = [] ∧
    (edsa_tag_print tbl ndo p).out.length ≤ 1 ∧
    (∀ b0 b1 rest, p = b0 :: b1 :: rest →
      (edsa_tag_print tbl ndo p).out
        = [if ndo.ndo_eflag > 2 then
            "MaxLinear ethertype 0x" ++ printf_04x ((b0.val <<< 8) ||| b1.val) ++ " ("
              ++ tok2str tbl "Unknown" ((b0.val <<< 8) ||| b1.val) ++ "), "
          else if (b0.val <<< 8) ||| b1.val = GSW1XX_TAG then "GSW1XX "
          else "GSW1XX Unknown 0x" ++ printf_04x ((b0.val <<< 8) ||| b1.val) ++ ", "]) ∧
    (ndo.ndo_eflag ≠ 0 →
      tag_common_print ndo p = ⟨[], none⟩ ∧ (edsa_tag_print tbl ndo p).val = none) ∧
    (ndo.ndo_eflag = 0 →
      ((edsa_tag_print tbl ndo p).val = none ↔ p.length < 2)) ∧
    (p.length < 2 → edsa_tag_print tbl ndo p = ⟨[], none⟩) ∧
    (ndo.ndo_eflag = 0 → 2 ≤ p.length → (edsa_tag_print tbl ndo p).val = some ()) ∧
    (∀ l ∈ LABELS, ∀ v : Nat, field_token l v ∉ (edsa_tag_print tbl ndo p).out) ∧
    (∀ l ∈ LABELS, ∀ v : Nat, field_token l v ∉ (tag_common_print ndo p).out) := by
  have hout : (tag_common_print ndo p).out = [] := by
    by_cases h0 : ndo.ndo_eflag = 0
    · rw [tcp_verbosity_zero ndo p h0]
    · rw [tcp_short ndo p h h0]
  have hnof : ∀ l ∈ LABELS, ∀ v : Nat, field_token l v ∉ (tag_common_print ndo p).out := by
    intro l _ v
    rw [hout]
    exact List.not_mem_nil _
  by_cases h2 : p.length < 2
  · have he := edsa_lt_two tbl ndo p h2
    refine ⟨hout, by rw [he]; simp, ?_, ?_, ?_, fun _ => he,
      fun _ h2le => absurd h2 (by omega), ?_, hnof⟩
    rotate_left 3
    · intro l _ v
      rw [he]
      exact List.not_mem_nil _
    · intro b0 b1 rest hp
      rw [hp] at h2
      exact absurd h2 (by simp only [List.length_cons]; omega)
    · intro h0
      exact ⟨tcp_short ndo p h h0, by rw [he]⟩
    · intro _
      rw [he]
      exact ⟨fun _ => h2, fun _ => rfl⟩
  · obtain ⟨b0, b1, rest, rfl⟩ : ∃ b0 b1 rest, p = b0 :: b1 :: rest := by
      match p, h2 with
      | [], h2 => simp at h2
      | [_], h2 => simp at h2
      | b0 :: b1 :: rest, _ => exact ⟨b0, b1, rest, rfl⟩
    have he := edsa_cons tbl ndo b0 b1 rest
    rw [hout] at he
    refine ⟨hout, by rw [he]; simp, ?_, ?_, ?_, fun hlt => absurd hlt h2, ?_, ?_, hnof⟩
    rotate_left 3
    · intro h0 _
      rw [he, tcp_verbosity_zero ndo _ h0]
    · intro l hl v hmem
      rw [he, List.mem_singleton] at hmem
      exact id_not_field_token l hl v _ _ _ _ _ hmem
    · intro c0 c1 rest2 hp
      obtain ⟨rfl, hp2⟩ := List.cons.inj hp
      obtain ⟨rfl, _⟩ := List.cons.inj hp2
      rw [he]
    · intro h0
      refine ⟨tcp_short ndo _ h h0, ?_⟩
      rw [he, tcp_short ndo _ h h0]
    · intro h0
      rw [he, tcp_verbosity_zero ndo _ h0]
      exact ⟨fun hv => by simp at hv, fun hv => absurd hv h2⟩

/-- Witness for `truncated_tag`: verbosity 1 and the seven octets
`88 c3 05 12 34 00 00`: the identification token, then the abort; and the
single octet `88`, on which nothing is printed at verbosity 1 or 0. -/
theorem truncated_tag_witness :
    ([0x88, 0xC3, 0x05, 0x12, 0x34, 0x00, 0x00] : List u_char).length < 8 ∧
    (⟨1, "", 0⟩ : netdissect_options).ndo_eflag ≠ 0 ∧
    (tag_common_print ⟨1, "", 0⟩ [0x88, 0xC3, 0x05, 0x12, 0x34, 0x00, 0x00] = ⟨[], none⟩ ∧
      (edsa_tag_print [] ⟨1, "", 0⟩ [0x88, 0xC3, 0x05, 0x12, 0x34, 0x00, 0x00]).val = none) ∧
    edsa_tag_print [] ⟨1, "", 0⟩ [0x88, 0xC3, 0x05, 0x12, 0x34, 0x00, 0x00]
      = ⟨["GSW1XX "], none⟩ ∧
    ([0x88] : List u_char).length < 8 ∧ ([0x88] : List u_char).length < 2 ∧
    edsa_tag_print [] ⟨1, "", 0⟩ [0x88] = ⟨[], none⟩ ∧
    edsa_tag_print [] ⟨0, "", 0⟩ [0x88] = ⟨[], none⟩ :=
  ⟨by decide, by decide,
    (truncated_tag [] ⟨1, "", 0⟩ [0x88, 0xC3, 0x05, 0x12, 0x34, 0x00, 0x00]
      (by decide)).2.2.2.1 (by decide),
    by decide, by decide, by decide,
    (truncated_tag [] ⟨1, "", 0⟩ [0x88] (by decide)).2.2.2.2.2.1 (by decide),
    (truncated_tag [] ⟨0, "", 0⟩ [0x88] (by decide)).2.2.2.2.2.1 (by decide)⟩

/-- Counterexample to claim C10 as stated: at verbosity 0 the seven octets
`88 c3 05 12 34 00 00` are fewer than eight, yet the tag printer prints
`GSW1XX ` and returns normally, with no truncation failure. -/
theorem truncated_tag_counterexample :
    ([0x88, 0xC3, 0x05, 0x12, 0x34, 0x00, 0x00] : List u_char).length < 8 ∧
    edsa_tag_print [] ⟨0, "", 0⟩ [0x88, 0xC3, 0x05, 0x12, 0x34, 0x00, 0x00]
      = ⟨["GSW1XX "], some ()⟩ ∧
    (edsa_tag_print [] ⟨0, "", 0⟩ [0x88, 0xC3, 0x05, 0x12, 0x34, 0x00, 0x00]).val ≠ none := by
  decide

/-! ## Decimal text and the closed form of the log -/

theorem digitChar_dec : ∀ m : Fin 10,
    (Nat.digitChar m.val).isDigit = true ∧ (Nat.digitChar m.val).toNat - 48 = m.val ∧
    (Nat.digitChar m.val = '0' → m.val = 0) := by decide

/-- With enough fuel, the digit loop puts in front of the accumulator a
non-empty run of decimal digits, without a leading zero unless the number is 0,
whose value is the number. -/
theorem toDigitsCore_dec (fuel : Nat) : ∀ (n : Nat) (ds : List Char), n < fuel →
    ∃ pre : List Char, Nat.toDigitsCore 10 fuel n ds = pre ++ ds ∧ pre ≠ [] ∧
      (∀ c ∈ pre, c.isDigit = true) ∧ (pre.head? = some '0' → pre = ['0']) ∧
      dec_value pre = n := by
  induction fuel with
  | zero => intro n ds h; omega
  | succ f ih =>
    intro n ds hn
    obtain ⟨hdig, hval, hz⟩ := digitChar_dec ⟨n % 10, Nat.mod_lt _ (by decide)⟩
    simp only at hdig hval hz
    by_cases h0 : n / 10 = 0
    · have hn10 : n % 10 = n := by omega
      refine ⟨[Nat.digitChar (n % 10)], by simp [Nat.toDigitsCore, h0], by simp, ?_, ?_, ?_⟩
      · intro c hc
        rw [List.mem_singleton] at hc
        rw [hc]; exact hdig
      · intro hh
        simp only [List.head?_cons, Option.some.injEq] at hh
        rw [hh]
      · simp only [dec_value, List.foldl_cons, List.foldl_nil, hval]
        omega
    · obtain ⟨pre, hpre, hne, hall, hlead, hv⟩ :=
        ih (n / 10) (Nat.digitChar (n % 10) :: ds) (by omega)
      refine ⟨pre ++ [Nat.digitChar (n % 10)], ?_, by simp, ?_, ?_, ?_⟩
      · simp [Nat.toDigitsCore, h0, hpre]
      · intro c hc
        rw [List.mem_append, List.mem_singleton] at hc
        rcases hc with hc | hc
        · exact hall c hc
        · rw [hc]; exact hdig
      · intro hh
        exfalso
        cases pre with
        | nil => exact hne rfl
        | cons c cs =>
          simp only [List.cons_append, List.head?_cons, Option.some.injEq] at hh
          have := hlead (by simp [hh])
          rw [this] at hv
          simp [dec_value] at hv
          exact h0 hv.symm
      · unfold dec_value at hv ⊢
        rw [List.foldl_append, hv]
        simp only [List.foldl_cons, List.foldl_nil, hval]
        omega

theorem printf_d_data (v : Nat) : (printf_d v).data = Nat.toDigits 10 v := rfl

/-- The `%d` text of a number: decimal digits only, no leading zero, and it
reads back as the number. -/
theorem printf_d_dec (v : Nat) :
    (printf_d v).data ≠ [] ∧ (∀ c ∈ (printf_d v).data, c.isDigit = true) ∧
    ((printf_d v).data.head? = some '0' → (printf_d v).data = ['0']) ∧
    dec_value (printf_d v).data = v := by
  obtain ⟨pre, hpre, hne, hall, hlead, hv⟩ := toDigitsCore_dec (v + 1) v [] (Nat.lt_succ_self v)
  rw [printf_d_data, Nat.toDigits, hpre, List.append_nil]
  exact ⟨hne, hall, hlead, hv⟩

theorem printf_d_inj (a b : Nat) (h : printf_d a = printf_d b) : a = b := by
  rw [← (printf_d_dec a).2.2.2, ← (printf_d_dec b).2.2.2, h]

theorem field_token_inj (l l2 : String) (v v2 : Nat) (hl : l ∈ LABELS) (hl2 : l2 ∈ LABELS)
    (h : field_token l v = field_token l2 v2) : l = l2 ∧ v = v2 := by
  have hc := field_token_clash l l2 v v2 h
  have key : ∀ a ∈ LABELS, ∀ b ∈ LABELS, clash a b → a = b := by decide
  have hll := key l hl l2 hl2 hc
  subst hll
  exact ⟨rfl, printf_d_inj _ _ (field_token_val _ _ _ h)⟩

theorem field_list_labels (e : Int) (b2 b3 b4 b5 b6 b7 : u_char) :
    ∀ t ∈ field_list e b2 b3 b4 b5 b6 b7, t.1 ∈ LABELS := by
  intro t ht
  unfold field_list at ht
  split_ifs at ht <;> simp only [List.mem_cons, List.mem_append, List.mem_singleton,
    List.cons_append, List.nil_append, List.append_nil, List.not_mem_nil, or_false] at ht
  all_goals (try casesm* _ ∨ _) <;> subst_vars <;> simp [LABELS]

theorem tcp_eq_field_list (ndo : netdissect_options) (b0 b1 b2 b3 b4 b5 b6 b7 : u_char) :
    tag_common_print ndo [b0, b1, b2, b3, b4, b5, b6, b7]
      = ⟨(field_list ndo.ndo_eflag b2 b3 b4 b5 b6 b7).map (fun t => field_token t.1 t.2),
         some ()⟩ := by
  by_cases h0 : ndo.ndo_eflag = 0
  · rw [tcp_verbosity_zero ndo _ h0]; simp [field_list, h0]
  by_cases h1 : ndo.ndo_eflag > 1
  · by_cases hlen : ((b6.val &&& 0x3F) <<< 8) + b7.val = 0
    · rw [tcp_ingress_detail b0 b1 b2 b3 b4 b5 b6 b7 ndo h1 hlen]
      simp only [field_list, if_neg h0, hlen, ne_eq, not_true_eq_false, if_false, if_pos h1]
      rfl
    · rw [tcp_egress_detail b0 b1 b2 b3 b4 b5 b6 b7 ndo h1 hlen]
      simp only [field_list, if_neg h0, ne_eq, hlen, not_false_eq_true, if_true, if_pos h1]
      by_cases hipo : b3.val &&& 0x3F = 0
      · simp only [hipo, not_true_eq_false, if_false]; rfl
      · simp only [hipo, not_false_eq_true, if_true]; rfl
  · by_cases hlen : ((b6.val &&& 0x3F) <<< 8) + b7.val = 0
    · rw [tcp_ingress_summary b0 b1 b2 b3 b4 b5 b6 b7 ndo h0 h1 hlen]
      simp only [field_list, if_neg h0, hlen, ne_eq, not_true_eq_false, if_false, if_neg h1]
      rfl
    · rw [tcp_egress_summary b0 b1 b2 b3 b4 b5 b6 b7 ndo h0 h1 hlen]
      simp only [field_list, if_neg h0, ne_eq, hlen, not_false_eq_true, if_true, if_neg h1]
      rfl

/-- A token with a known label is in the printer's log exactly when its (label,
value) pair is in the closed form. -/
theorem mem_out_iff (ndo : netdissect_options) (b0 b1 b2 b3 b4 b5 b6 b7 : u_char)
    (l : String) (hl : l ∈ LABELS) (v : Nat) :
    field_token l v ∈ (tag_common_print ndo [b0, b1, b2, b3, b4, b5, b6, b7]).out
      ↔ (l, v) ∈ field_list ndo.ndo_eflag b2 b3 b4 b5 b6 b7 := by
  rw [tcp_eq_field_list]
  simp only [List.mem_map]
  constructor
  · rintro ⟨t, ht, heq⟩
    obtain ⟨h1, h2⟩ := field_token_inj t.1 l t.2 v (field_list_labels _ _ _ _ _ _ _ t ht) hl heq
    have : t = (l, v) := Prod.ext h1 h2
    rw [← this]; exact ht
  · intro h
    exact ⟨(l, v), h, rfl⟩

/-! ## Independence from the EtherType, and the role of the verbosity -/

/-- Claim C11: field decoding does not depend on the EtherType. For every
verbosity and any two eight-octet windows that agree on octets 2-7, the field
printer has the same outcome, and the tag printer's log is one identification
string followed by the same field tokens, with the same final status; so an
EtherType other than `0x88C3` changes the identification string only. -/
theorem fields_independent_of_ethertype (tbl : List tok) (ndo : netdissect_options)
    (a0 a1 b0 b1 b2 b3 b4 b5 b6 b7 : u_char) :
    tag_common_print ndo [a0, a1, b2, b3, b4, b5, b6, b7]
      = tag_common_print ndo [b0, b1, b2, b3, b4, b5, b6, b7] ∧
    (edsa_tag_print tbl ndo [a0, a1, b2, b3, b4, b5, b6, b7]).out.tail
      = (tag_common_print ndo [b0, b1, b2, b3, b4, b5, b6, b7]).out ∧
    (edsa_tag_print tbl ndo [b0, b1, b2, b3, b4, b5, b6, b7]).out.tail
      = (tag_common_print ndo [b0, b1, b2, b3, b4, b5, b6, b7]).out ∧
    (edsa_tag_print tbl ndo [a0, a1, b2, b3, b4, b5, b6, b7]).out.length
      = (tag_common_print ndo [b0, b1, b2, b3, b4, b5, b6, b7]).out.length + 1 ∧
    (edsa_tag_print tbl ndo [b0, b1, b2, b3, b4, b5, b6, b7]).out.length
      = (tag_common_print ndo [b0, b1, b2, b3, b4, b5, b6, b7]).out.length + 1 ∧
    (edsa_tag_print tbl ndo [a0, a1, b2, b3, b4, b5, b6, b7]).val
      = (edsa_tag_print tbl ndo [b0, b1, b2, b3, b4, b5, b6, b7]).val := by
  have hf : tag_common_print ndo [a0, a1, b2, b3, b4, b5, b6, b7]
      = tag_common_print ndo [b0, b1, b2, b3, b4, b5, b6, b7] := by
    rw [tcp_eq_field_list, tcp_eq_field_list]
  refine ⟨hf, ?_, ?_, ?_, ?_, ?_⟩
  · rw [edsa_8, hf]; rfl
  · rw [edsa_8]; rfl
  · rw [edsa_8, hf]; rfl
  · rw [edsa_8]; rfl
  · rw [edsa_8, edsa_8, hf]

theorem field_list_zero (b2 b3 b4 b5 b6 b7 : u_char) :
    field_list 0 b2 b3 b4 b5 b6 b7 = [] := by
  simp [field_list]

theorem field_list_ge_two (v : Int) (hv : v ≥ 2) (b2 b3 b4 b5 b6 b7 : u_char) :
    field_list v b2 b3 b4 b5 b6 b7 = field_list 2 b2 b3 b4 b5 b6 b7 := by
  have h0 : v ≠ 0 := by omega
  have h1 : v > 1 := by omega
  simp [field_list, h0, h1]

theorem field_list_le_one (v : Int) (h0 : v ≠ 0) (h1 : ¬ v > 1)
    (b2 b3 b4 b5 b6 b7 : u_char) :
    field_list v b2 b3 b4 b5 b6 b7 = field_list 1 b2 b3 b4 b5 b6 b7 := by
  simp [field_list, h0, h1]

theorem field_list_one_initial (b2 b3 b4 b5 b6 b7 : u_char) :
    field_list 1 b2 b3 b4 b5 b6 b7 <+: field_list 2 b2 b3 b4 b5 b6 b7 := by
  by_cases hlen : ((b6.val &&& 0x3F) <<< 8) + b7.val = 0
  · simp [field_list, hlen]
  · simp only [field_list, ne_eq, hlen, not_false_eq_true, if_true]
    simp

/-- In a list of pairs whose first components are all different, the first
component determines the second. -/
theorem snd_unique {α β : Type} : ∀ (l : List (α × β)), (l.map Prod.fst).Nodup →
    ∀ a x y, (a, x) ∈ l → (a, y) ∈ l → x = y
  | [], _, _, _, _, hx, _ => absurd hx (List.not_mem_nil _)
  | (a2, z) :: l, hnd, a, x, y, hx, hy => by
    rw [List.map_cons, List.nodup_cons] at hnd
    rw [List.mem_cons] at hx hy
    have hfst : ∀ w, (a, w) ∈ l → a ∈ l.map Prod.fst :=
      fun w hw => List.mem_map.mpr ⟨(a, w), hw, rfl⟩
    rcases hx with hx | hx <;> rcases hy with hy | hy
    · rw [Prod.mk.injEq] at hx hy
      rw [hx.2, hy.2]
    · rw [Prod.mk.injEq] at hx
      exact absurd (hx.1 ▸ hfst y hy) hnd.1
    · rw [Prod.mk.injEq] at hy
      exact absurd (hy.1 ▸ hfst x hx) hnd.1
    · exact snd_unique l hnd.2 a x y hx hy

theorem field_list_nodup (b2 b3 b4 b5 b6 b7 : u_char) :
    ((field_list 2 b2 b3 b4 b5 b6 b7).map Prod.fst).Nodup := by
  by_cases hlen : ((b6.val &&& 0x3F) <<< 8) + b7.val = 0
  · simp [field_list, hlen]
  · by_cases hipo : b3.val &&& 0x3F = 0 <;> simp [field_list, hlen, hipo]

/-- Whatever is in the closed form at some verbosity is in it at verbosity 2. -/
theorem field_list_sub_two (v : Int) (b2 b3 b4 b5 b6 b7 : u_char) :
    ∀ t ∈ field_list v b2 b3 b4 b5 b6 b7, t ∈ field_list 2 b2 b3 b4 b5 b6 b7 := by
  intro t ht
  by_cases h0 : v = 0
  · rw [h0, field_list_zero] at ht
    exact absurd ht (List.not_mem_nil _)
  · by_cases h1 : v > 1
    · rw [field_list_ge_two v (by omega)] at ht
      exact ht
    · rw [field_list_le_one v h0 h1] at ht
      exact (field_list_one_initial b2 b3 b4 b5 b6 b7).subset ht

/-- Claim C12: the verbosity selects which fields are printed and never
changes a decoded value. For every eight-octet window the field-token sequence
is empty at verbosity 0, the sequence at verbosity 1 is a prefix of the one at
verbosity 2, every verbosity from 2 up gives the sequence of verbosity 2, and a
label printed at two verbosity levels carries the same value at both. -/
theorem verbosity_selects_fields (ndo : netdissect_options)
    (b0 b1 b2 b3 b4 b5 b6 b7 : u_char) :
    (tag_common_print { ndo with ndo_eflag := 0 } [b0, b1, b2, b3, b4, b5, b6, b7]).out = [] ∧
    (tag_common_print { ndo with ndo_eflag := 1 } [b0, b1, b2, b3, b4, b5, b6, b7]).out
      <+: (tag_common_print { ndo with ndo_eflag := 2 } [b0, b1, b2, b3, b4, b5, b6, b7]).out ∧
    (∀ v : Int, v ≥ 2 →
      (tag_common_print { ndo with ndo_eflag := v } [b0, b1, b2, b3, b4, b5, b6, b7]).out
        = (tag_common_print { ndo with ndo_eflag := 2 }
            [b0, b1, b2, b3, b4, b5, b6, b7]).out) ∧
    (∀ (v1 v2 : Int) (l : String), l ∈ LABELS → ∀ x y : Nat,
      field_token l x
        ∈ (tag_common_print { ndo with ndo_eflag := v1 }
            [b0, b1, b2, b3, b4, b5, b6, b7]).out →
      field_token l y
        ∈ (tag_common_print { ndo with ndo_eflag := v2 }
            [b0, b1, b2, b3, b4, b5, b6, b7]).out →
      x = y) := by
  refine ⟨?_, ?_, ?_, ?_⟩
  · rw [tcp_eq_field_list]
    show (field_list 0 b2 b3 b4 b5 b6 b7).map (fun t => field_token t.1 t.2) = []
    rw [field_list_zero]; rfl
  · rw [tcp_eq_field_list, tcp_eq_field_list]
    exact List.IsPrefix.map (fun t => field_token t.1 t.2)
      (field_list_one_initial b2 b3 b4 b5 b6 b7)
  · intro v hv
    rw [tcp_eq_field_list, tcp_eq_field_list]
    show (field_list v b2 b3 b4 b5 b6 b7).map (fun t => field_token t.1 t.2)
      = (field_list 2 b2 b3 b4 b5 b6 b7).map (fun t => field_token t.1 t.2)
    rw [field_list_ge_two v hv]
  · intro v1 v2 l hl x y hx hy
    rw [mem_out_iff _ _ _ _ _ _ _ _ _ l hl] at hx hy
    exact snd_unique _ (field_list_nodup b2 b3 b4 b5 b6 b7) l x y
      (field_list_sub_two v1 b2 b3 b4 b5 b6 b7 _ hx)
      (field_list_sub_two v2 b2 b3 b4 b5 b6 b7 _ hy)

/-- Witness for `verbosity_selects_fields`: on the egress window
`88 c3 c5 12 34 00 00 0a`, verbosity 7 prints what verbosity 2 prints, and the
`Egress Port` token has the same value at verbosities 1 and 5. -/
theorem verbosity_selects_fields_witness :
    (7 : Int) ≥ 2 ∧
    (tag_common_print ⟨7, "", 0⟩ [0x88, 0xC3, 0xC5, 0x12, 0x34, 0x00, 0x00, 0x0A]).out
      = (tag_common_print ⟨2, "", 0⟩ [0x88, 0xC3, 0xC5, 0x12, 0x34, 0x00, 0x00, 0x0A]).out ∧
    (∀ y, field_token "Egress Port" y
        ∈ (tag_common_print ⟨5, "", 0⟩ [0x88, 0xC3, 0xC5, 0x12, 0x34, 0x00, 0x00, 0x0A]).out →
      5 = y) :=
  ⟨by decide,
    (verbosity_selects_fields ⟨0, "", 0⟩ 0x88 0xC3 0xC5 0x12 0x34 0x00 0x00 0x0A).2.2.1 7
      (by decide),
    fun y hy =>
      (verbosity_selects_fields ⟨0, "", 0⟩ 0x88 0xC3 0xC5 0x12 0x34 0x00 0x00 0x0A).2.2.2 1 5
        "Egress Port" (by decide) 5 y (by decide) hy⟩

/-! ## The entry point -/

/-- Claim C13 as amended: the entry point. `edsa_gsw1xx_if_print` records the
protocol name `gsw1xx` and then calls the dispatcher with the frame, `h->len`,
`h->caplen`, `edsa_tag_print` as the callback and the tag size 8; what is
printed is what the dispatcher prints. It returns nothing: when the dispatcher
returns `n`, `n` is added to `ndo_ll_hdr_len` (a `u_int`), and when the
dispatcher is aborted the counter is left as it was. The verbosity is never
changed, so the only state changed is the protocol name and that counter. -/
theorem entry_point (disp : switch_tag_dispatcher) (tbl : List tok)
    (ndo : netdissect_options) (h : pcap_pkthdr) (p : List u_char) :
    (edsa_gsw1xx_if_print disp tbl ndo h p).2.out
      = (disp { ndo with ndo_protocol := "gsw1xx" } p h.len h.caplen
          (edsa_tag_print tbl) 8).out ∧
    (edsa_gsw1xx_if_print disp tbl ndo h p).1.ndo_protocol = "gsw1xx" ∧
    (edsa_gsw1xx_if_print disp tbl ndo h p).1.ndo_eflag = ndo.ndo_eflag ∧
    (∀ n, (disp { ndo with ndo_protocol := "gsw1xx" } p h.len h.caplen
          (edsa_tag_print tbl) 8).val = some n →
      (edsa_gsw1xx_if_print disp tbl ndo h p).1.ndo_ll_hdr_len
        = (ndo.ndo_ll_hdr_len + n) % 2 ^ 32 ∧
      (edsa_gsw1xx_if_print disp tbl ndo h p).2.val = some ()) ∧
    ((disp { ndo with ndo_protocol := "gsw1xx" } p h.len h.caplen
          (edsa_tag_print tbl) 8).val = none →
      (edsa_gsw1xx_if_print disp tbl ndo h p).1.ndo_ll_hdr_len = ndo.ndo_ll_hdr_len ∧
      (edsa_gsw1xx_if_print disp tbl ndo h p).2.val = none) := by
  unfold edsa_gsw1xx_if_print EDSA_LEN
  cases hr : (disp { ndo with ndo_protocol := "gsw1xx" } p h.len h.caplen
      (edsa_tag_print tbl) 8).val with
  | none => simp [hr]
  | some n => simp [hr]

/-- Witness for `entry_point`: with the probe dispatcher, a 64-octet frame, 60
captured, verbosity 1 and 100 octets of header already counted. -/
theorem entry_point_witness :
    (edsa_gsw1xx_if_print probe_dispatcher [] ⟨1, "ether", 100⟩ ⟨60, 64⟩
        [0, 0, 0, 0, 0, 1, 0, 0, 0, 0, 0, 2, 0x88, 0xC3, 0, 0, 0, 0, 0, 0x0A]).2.out
      = ["[gsw1xx 64 60 8] ", "GSW1XX ", "Egress Port 0,"] ∧
    (edsa_gsw1xx_if_print probe_dispatcher [] ⟨1, "ether", 100⟩ ⟨60, 64⟩
        [0, 0, 0, 0, 0, 1, 0, 0, 0, 0, 0, 2, 0x88, 0xC3, 0, 0, 0, 0, 0, 0x0A]).1
      = ⟨1, "gsw1xx", 122⟩ :=
  ⟨((entry_point probe_dispatcher [] ⟨1, "ether", 100⟩ ⟨60, 64⟩
        [0, 0, 0, 0, 0, 1, 0, 0, 0, 0, 0, 2, 0x88, 0xC3, 0, 0, 0, 0, 0, 0x0A]).1).trans
      (by decide),
    by decide⟩

/-- Counterexample to claim C13 as stated: with a dispatcher that reports 22
octets, the entry point leaves more than the protocol name changed: the header
length counter goes from 0 to 22. -/
theorem entry_point_counterexample :
    (edsa_gsw1xx_if_print probe_dispatcher [] ⟨0, "", 0⟩ ⟨60, 64⟩
        [0, 0, 0, 0, 0, 1, 0, 0, 0, 0, 0, 2, 0x88, 0xC3, 0, 0, 0, 0, 0, 0x0A]).1
      ≠ { (⟨0, "", 0⟩ : netdissect_options) with ndo_protocol := "gsw1xx" } ∧
    (edsa_gsw1xx_if_print probe_dispatcher [] ⟨0, "", 0⟩ ⟨60, 64⟩
        [0, 0, 0, 0, 0, 1, 0, 0, 0, 0, 0, 2, 0x88, 0xC3, 0, 0, 0, 0, 0, 0x0A]).1.ndo_ll_hdr_len
      = 22 := by
  decide

/-! ## Values carried by the tokens -/

set_option maxRecDepth 100000 in
/-- Facts about the bit fields of one octet, checked on all 256 values. -/
theorem octet_facts : ∀ b : u_char,
    (b.val &&& 0x08 = 0 ∨ b.val &&& 0x08 = 8) ∧
    b.val &&& 0x08 = (b.val &&& 0x0F) &&& 8 ∧
    ((b.val &&& 0x10) >>> 3 = 0 ∨ (b.val &&& 0x10) >>> 3 = 2) ∧
    ((b.val &&& 0x80) >>> 7 = 0 ∨ (b.val &&& 0x80) >>> 7 = 1) ∧
    ((b.val &&& 0x40) >>> 6 = 0 ∨ (b.val &&& 0x40) >>> 6 = 1) ∧
    ((b.val &&& 0x10) >>> 4 = 0 ∨ (b.val &&& 0x10) >>> 4 = 1) ∧
    16 * ((b.val &&& 0xF0) >>> 4) + (b.val &&& 0x0F) = b.val ∧
    (b.val &&& 0x80) >>> 7 = ((b.val &&& 0xF0) >>> 4) / 8 ∧
    (b.val &&& 0x40) >>> 6 = ((b.val &&& 0xF0) >>> 4) / 4 % 2 ∧
    b.val &&& 0x0F ≤ 15 ∧ b.val &&& 0x3F ≤ 63 := by
  decide

/-- What a pair in the closed form says, label by label: the value, and the
mode and verbosity under which the label is printed. -/
theorem field_list_value (e : Int) (b2 b3 b4 b5 b6 b7 : u_char) (l : String) (v : Nat)
    (h : (l, v) ∈ field_list e b2 b3 b4 b5 b6 b7) :
    e ≠ 0 ∧
    (l = "Egress Port" → v = b2.val &&& 0x0F ∧ ((b6.val &&& 0x3F) <<< 8) + b7.val ≠ 0) ∧
    (l = "Ingress Port" → v = b2.val &&& 0x0F ∧ ((b6.val &&& 0x3F) <<< 8) + b7.val = 0) ∧
    (l = "MAP" → v = (b4.val <<< 8) + b3.val ∧ ((b6.val &&& 0x3F) <<< 8) + b7.val = 0) ∧
    (l = "TTC" → v = b2.val &&& 0x08 ∧ e > 1) ∧
    (l = "TCE" → v = (b2.val &&& 0x40) >>> 6 ∧ e > 1) ∧
    (l = "TC" → v = (b2.val &&& 0xF0) >>> 4 ∧ ((b6.val &&& 0x3F) <<< 8) + b7.val ≠ 0) ∧
    (l = "EPN" → v = b2.val &&& 0x0F ∧ ((b6.val &&& 0x3F) <<< 8) + b7.val ≠ 0) ∧
    (l = "POE" → v = (b2.val &&& 0x80) >>> 7 ∧ ((b6.val &&& 0x3F) <<< 8) + b7.val ≠ 0) ∧
    (l = "IV4" → v = (b2.val &&& 0x40) >>> 6 ∧ b3.val &&& 0x3F ≠ 0) ∧
    (l = "IPO" → v = b3.val &&& 0x3F ∧ b3.val &&& 0x3F ≠ 0) ∧
    (l = "Len" → v = ((b6.val &&& 0x3F) <<< 8) + b7.val
        ∧ ((b6.val &&& 0x3F) <<< 8) + b7.val ≠ 0) ∧
    (l = "PME" → v = (b2.val &&& 0x80) >>> 7 ∧ ((b6.val &&& 0x3F) <<< 8) + b7.val = 0) ∧
    (l = "FNL" → v = (b2.val &&& 0x10) >>> 4 ∧ ((b6.val &&& 0x3F) <<< 8) + b7.val = 0) ∧
    (l = "irq" → v = (b5.val &&& 0x10) >>> 3 ∧ ((b6.val &&& 0x3F) <<< 8) + b7.val = 0) := by
  unfold field_list at h
  generalize hlen : ((b6.val &&& 0x3F) <<< 8) + b7.val = len at h ⊢
  generalize hipo : b3.val &&& 0x3F = ipo at h ⊢
  split_ifs at h <;> simp only [List.mem_cons, List.mem_append, List.mem_singleton,
    List.cons_append, List.nil_append, List.append_nil, List.not_mem_nil, or_false,
    Prod.mk.injEq] at h
  all_goals (try casesm* _ ∨ _, _ ∧ _) <;> subst_vars <;> simp_all

/-! ## Token format -/

theorem field_token_data (l : String) (v : Nat) :
    (field_token l v).data = l.data ++ [' '] ++ (printf_d v).data ++ [','] := by
  simp only [field_token, String.data_append]

/-- A field token holds no newline and ends with a comma. -/
theorem token_chars (l : String) (hl : l ∈ LABELS) (v : Nat) :
    '\n' ∉ (field_token l v).data ∧ (field_token l v).data.getLast? = some ',' := by
  rw [field_token_data]
  refine ⟨?_, List.getLast?_concat _⟩
  intro hmem
  simp only [List.mem_append, List.mem_singleton] at hmem
  have key : ∀ a ∈ LABELS, '\n' ∉ a.data := by decide
  rcases hmem with ((h | h) | h) | h
  · exact key l hl h
  · exact absurd h (by decide)
  · exact absurd ((printf_d_dec v).2.1 _ h) (by decide)
  · exact absurd h (by decide)

theorem join_not_mem (ts : List String) (c : Char) (h : ∀ t ∈ ts, c ∉ t.data) :
    c ∉ (String.join ts).data := by
  rw [String.data_join, List.mem_flatten]
  rintro ⟨cs, hcs, hc⟩
  obtain ⟨t, ht, rfl⟩ := List.mem_map.mp hcs
  exact h t ht hc

theorem join_getLast (ts : List String) (c : Char) (hne : ts ≠ [])
    (h : ∀ t ∈ ts, t.data.getLast? = some c) : (String.join ts).data.getLast? = some c := by
  rcases List.eq_nil_or_concat ts with rfl | ⟨L, b, rfl⟩
  · exact absurd rfl hne
  · have hb : b.data.getLast? = some c := h b (by simp)
    rw [String.data_join, List.concat_eq_append, List.map_append, List.flatten_append,
      List.getLast?_append]
    simp [hb]

/-- Claim C14: token format. For every eight-octet window and every verbosity,
each string the field printer prints is a label from the fixed set of fourteen,
one space, a decimal integer (digits only, so no sign; no leading zero; it reads
back as the value) and a comma. The text is the strings concatenated with
nothing between them, so it holds no newline and, when any token is printed,
ends with a comma. -/
theorem token_format (ndo : netdissect_options) (b0 b1 b2 b3 b4 b5 b6 b7 : u_char) :
    (∀ t ∈ (tag_common_print ndo [b0, b1, b2, b3, b4, b5, b6, b7]).out,
      ∃ l ∈ LABELS, ∃ v : Nat, t = l ++ " " ++ printf_d v ++ "," ∧
        (printf_d v).data ≠ [] ∧ (∀ c ∈ (printf_d v).data, c.isDigit = true) ∧
        ((printf_d v).data.head? = some '0' → (printf_d v).data = ['0']) ∧
        dec_value (printf_d v).data = v) ∧
    text (tag_common_print ndo [b0, b1, b2, b3, b4, b5, b6, b7])
      = String.join (tag_common_print ndo [b0, b1, b2, b3, b4, b5, b6, b7]).out ∧
    '\n' ∉ (text (tag_common_print ndo [b0, b1, b2, b3, b4, b5, b6, b7])).data ∧
    ((tag_common_print ndo [b0, b1, b2, b3, b4, b5, b6, b7]).out ≠ [] →
      (text (tag_common_print ndo [b0, b1, b2, b3, b4, b5, b6, b7])).data.getLast?
        = some ',') := by
  have hform : ∀ t ∈ (tag_common_print ndo [b0, b1, b2, b3, b4, b5, b6, b7]).out,
      ∃ l ∈ LABELS, ∃ v : Nat, t = field_token l v := by
    intro t ht
    rw [tcp_eq_field_list] at ht
    obtain ⟨q, hq, rfl⟩ := List.mem_map.mp ht
    exact ⟨q.1, field_list_labels _ _ _ _ _ _ _ q hq, q.2, rfl⟩
  refine ⟨?_, rfl, ?_, ?_⟩
  · intro t ht
    obtain ⟨l, hl, v, rfl⟩ := hform t ht
    exact ⟨l, hl, v, rfl, printf_d_dec v⟩
  · apply join_not_mem
    intro t ht
    obtain ⟨l, hl, v, rfl⟩ := hform t ht
    exact (token_chars l hl v).1
  · intro hne
    apply join_getLast _ _ hne
    intro t ht
    obtain ⟨l, hl, v, rfl⟩ := hform t ht
    exact (token_chars l hl v).2

/-- Witness for `token_format`: at verbosity 2 the window
`88 c3 c5 12 34 00 00 0a` prints a text that ends with a comma. -/
theorem token_format_witness :
    (tag_common_print ⟨2, "", 0⟩ [0x88, 0xC3, 0xC5, 0x12, 0x34, 0x00, 0x00, 0x0A]).out ≠ [] ∧
    (text (tag_common_print ⟨2, "", 0⟩
      [0x88, 0xC3, 0xC5, 0x12, 0x34, 0x00, 0x00, 0x0A])).data.getLast? = some ',' ∧
    text (tag_common_print ⟨2, "", 0⟩ [0x88, 0xC3, 0xC5, 0x12, 0x34, 0x00, 0x00, 0x0A])
      = "Egress Port 5,TTC 0,TCE 1,TC 12,EPN 5,POE 1,IV4 1,IPO 18,Len 10," :=
  ⟨by decide,
    (token_format ⟨2, "", 0⟩ 0x88 0xC3 0xC5 0x12 0x34 0x00 0x00 0x0A).2.2.2 (by decide),
    by decide⟩

/-! ## Relations between printed values -/

/-- Every pair of the closed form at verbosity above 1 on an egress window. -/
theorem egress_detail_mem (ndo : netdissect_options) (h1 : ndo.ndo_eflag > 1)
    (b0 b1 b2 b3 b4 b5 b6 b7 : u_char)
    (hl : ((b6.val &&& 0x3F) <<< 8) + b7.val ≠ 0) :
    field_token "Egress Port" (b2.val &&& 0x0F)
        ∈ (tag_common_print ndo [b0, b1, b2, b3, b4, b5, b6, b7]).out ∧
    field_token "TCE" ((b2.val &&& 0x40) >>> 6)
        ∈ (tag_common_print ndo [b0, b1, b2, b3, b4, b5, b6, b7]).out ∧
    field_token "TC" ((b2.val &&& 0xF0) >>> 4)
        ∈ (tag_common_print ndo [b0, b1, b2, b3, b4, b5, b6, b7]).out ∧
    field_token "EPN" (b2.val &&& 0x0F)
        ∈ (tag_common_print ndo [b0, b1, b2, b3, b4, b5, b6, b7]).out ∧
    field_token "POE" ((b2.val &&& 0x80) >>> 7)
        ∈ (tag_common_print ndo [b0, b1, b2, b3, b4, b5, b6, b7]).out := by
  have h0 : ndo.ndo_eflag ≠ 0 := by omega
  have hmem : ∀ l v, l ∈ LABELS →
      (l, v) ∈ [("Egress Port", b2.val &&& 0x0F), ("TTC", b2.val &&& 0x08),
        ("TCE", (b2.val &&& 0x40) >>> 6), ("TC", (b2.val &&& 0xF0) >>> 4),
        ("EPN", b2.val &&& 0x0F), ("POE", (b2.val &&& 0x80) >>> 7)] →
      field_token l v ∈ (tag_common_print ndo [b0, b1, b2, b3, b4, b5, b6, b7]).out := by
    intro l v hlab hin
    rw [mem_out_iff _ _ _ _ _ _ _ _ _ l hlab]
    unfold field_list
    rw [if_neg h0, if_pos hl, if_pos h1]
    simp only [List.mem_cons, List.mem_append, List.mem_singleton, List.not_mem_nil,
      or_false] at hin ⊢
    tauto
  exact ⟨hmem _ _ (by decide) (by simp), hmem _ _ (by decide) (by simp),
    hmem _ _ (by decide) (by simp), hmem _ _ (by decide) (by simp),
    hmem _ _ (by decide) (by simp)⟩

/-- Claim C15: egress port label versus bit position. `GSW1XX_IPN` and
`GSW1XX_EG_EPN` are the same extraction (`TOK(tag, 2, 0x0F, 0)`, on an
eight-octet window `b2 & 0x0F`), so for every egress window at verbosity above 1
the `Egress Port` token and the `EPN` token are both printed and carry the same
value. -/
theorem egress_port_equals_epn (ndo : netdissect_options) (h1 : ndo.ndo_eflag > 1)
    (b0 b1 b2 b3 b4 b5 b6 b7 : u_char)
    (hl : ((b6.val &&& 0x3F) <<< 8) + b7.val ≠ 0) :
    GSW1XX_IPN = GSW1XX_EG_EPN ∧
    GSW1XX_IPN [b0, b1, b2, b3, b4, b5, b6, b7] = ⟨[], some (b2.val &&& 0x0F)⟩ ∧
    GSW1XX_EG_EPN [b0, b1, b2, b3, b4, b5, b6, b7] = ⟨[], some (b2.val &&& 0x0F)⟩ ∧
    field_token "Egress Port" (b2.val &&& 0x0F)
        ∈ (tag_common_print ndo [b0, b1, b2, b3, b4, b5, b6, b7]).out ∧
    field_token "EPN" (b2.val &&& 0x0F)
        ∈ (tag_common_print ndo [b0, b1, b2, b3, b4, b5, b6, b7]).out ∧
    (∀ x y : Nat,
      field_token "Egress Port" x
          ∈ (tag_common_print ndo [b0, b1, b2, b3, b4, b5, b6, b7]).out →
      field_token "EPN" y ∈ (tag_common_print ndo [b0, b1, b2, b3, b4, b5, b6, b7]).out →
      x = y) := by
  obtain ⟨hport, _, _, hepn, _⟩ := egress_detail_mem ndo h1 b0 b1 b2 b3 b4 b5 b6 b7 hl
  refine ⟨rfl, rfl, rfl, hport, hepn, ?_⟩
  intro x y hx hy
  rw [mem_out_iff _ _ _ _ _ _ _ _ _ _ (by decide)] at hx hy
  have ex := ((field_list_value _ _ _ _ _ _ _ _ _ hx).2.1 rfl).1
  have ey := ((field_list_value _ _ _ _ _ _ _ _ _ hy).2.2.2.2.2.2.2.1 rfl).1
  rw [ex, ey]

/-- Witness for `egress_port_equals_epn`: verbosity 2 and the window
`88 c3 c5 12 34 00 00 0a`, where both tokens carry 5. -/
theorem egress_port_equals_epn_witness :
    (⟨2, "", 0⟩ : netdissect_options).ndo_eflag > 1 ∧
    (((0x00 : u_char).val &&& 0x3F) <<< 8) + (0x0A : u_char).val ≠ 0 ∧
    field_token "Egress Port" ((0xC5 : u_char).val &&& 0x0F)
        ∈ (tag_common_print ⟨2, "", 0⟩ [0x88, 0xC3, 0xC5, 0x12, 0x34, 0x00, 0x00, 0x0A]).out ∧
    field_token "EPN" ((0xC5 : u_char).val &&& 0x0F)
        ∈ (tag_common_print ⟨2, "", 0⟩ [0x88, 0xC3, 0xC5, 0x12, 0x34, 0x00, 0x00, 0x0A]).out :=
  ⟨by decide, by decide,
    (egress_port_equals_epn ⟨2, "", 0⟩ (by decide) 0x88 0xC3 0xC5 0x12 0x34 0x00 0x00 0x0A
      (by decide)).2.2.2.1,
    (egress_port_equals_epn ⟨2, "", 0⟩ (by decide) 0x88 0xC3 0xC5 0x12 0x34 0x00 0x00 0x0A
      (by decide)).2.2.2.2.1⟩

/-- Claim C16: unnormalised flag values. For every eight-octet window and
every verbosity: a printed TTC value is `b2 & 0x08`, not shifted, so it is 0 or
8, and it is bit 3 of the printed port number (`TTC = Port & 8`); a printed irq
value is `(b5 & 0x10) >> 3`, so it is 0 or 2; printed PME, TCE, FNL, POE and IV4
values are 0 or 1. -/
theorem unnormalised_flags (ndo : netdissect_options) (b0 b1 b2 b3 b4 b5 b6 b7 : u_char) :
    GSW1XX_TTC [b0, b1, b2, b3, b4, b5, b6, b7] = ⟨[], some (b2.val &&& 0x08)⟩ ∧
    GSW1XX_IE [b0, b1, b2, b3, b4, b5, b6, b7] = ⟨[], some ((b5.val &&& 0x10) >>> 3)⟩ ∧
    (∀ v : Nat,
      field_token "TTC" v ∈ (tag_common_print ndo [b0, b1, b2, b3, b4, b5, b6, b7]).out →
      v = b2.val &&& 0x08 ∧ (v = 0 ∨ v = 8)) ∧
    (∀ v port : Nat,
      field_token "TTC" v ∈ (tag_common_print ndo [b0, b1, b2, b3, b4, b5, b6, b7]).out →
      (field_token "Egress Port" port
          ∈ (tag_common_print ndo [b0, b1, b2, b3, b4, b5, b6, b7]).out ∨
        field_token "Ingress Port" port
          ∈ (tag_common_print ndo [b0, b1, b2, b3, b4, b5, b6, b7]).out) →
      v = port &&& 8) ∧
    (∀ v : Nat,
      field_token "irq" v ∈ (tag_common_print ndo [b0, b1, b2, b3, b4, b5, b6, b7]).out →
      v = (b5.val &&& 0x10) >>> 3 ∧ (v = 0 ∨ v = 2)) ∧
    (∀ l ∈ ["PME", "TCE", "FNL", "POE", "IV4"], ∀ v : Nat,
      field_token l v ∈ (tag_common_print ndo [b0, b1, b2, b3, b4, b5, b6, b7]).out →
      v = 0 ∨ v = 1) := by
  obtain ⟨ht8, htp, _, hb7, hb6, hb4, _⟩ := octet_facts b2
  obtain ⟨_, _, hirq, _⟩ := octet_facts b5
  refine ⟨rfl, rfl, ?_, ?_, ?_, ?_⟩
  · intro v hv
    rw [mem_out_iff _ _ _ _ _ _ _ _ _ _ (by decide)] at hv
    have e := ((field_list_value _ _ _ _ _ _ _ _ _ hv).2.2.2.2.1 rfl).1
    rw [e]
    exact ⟨rfl, ht8⟩
  · intro v port hv hp
    rw [mem_out_iff _ _ _ _ _ _ _ _ _ _ (by decide)] at hv
    have e := ((field_list_value _ _ _ _ _ _ _ _ _ hv).2.2.2.2.1 rfl).1
    have ep : port = b2.val &&& 0x0F := by
      rcases hp with hp | hp
      · rw [mem_out_iff _ _ _ _ _ _ _ _ _ _ (by decide)] at hp
        exact ((field_list_value _ _ _ _ _ _ _ _ _ hp).2.1 rfl).1
      · rw [mem_out_iff _ _ _ _ _ _ _ _ _ _ (by decide)] at hp
        exact ((field_list_value _ _ _ _ _ _ _ _ _ hp).2.2.1 rfl).1
    rw [e, ep]
    exact htp
  · intro v hv
    rw [mem_out_iff _ _ _ _ _ _ _ _ _ _ (by decide)] at hv
    have e := ((field_list_value _ _ _ _ _ _ _ _ _ hv).2.2.2.2.2.2.2.2.2.2.2.2.2.2 rfl).1
    rw [e]
    exact ⟨rfl, hirq⟩
  · intro l hl
    have hlab : l ∈ LABELS := by
      revert l
      decide
    intro v hv
    rw [mem_out_iff _ _ _ _ _ _ _ _ _ l hlab] at hv
    obtain ⟨_, _, _, _, _, hTCE, _, _, hPOE, hIV4, _, _, hPME, hFNL, _⟩ :=
      field_list_value _ _ _ _ _ _ _ _ _ hv
    simp only [List.mem_cons, List.mem_singleton, List.not_mem_nil, or_false] at hl
    rcases hl with rfl | rfl | rfl | rfl | rfl
    · rw [(hPME rfl).1]; exact hb7
    · rw [(hTCE rfl).1]; exact hb6
    · rw [(hFNL rfl).1]; exact hb4
    · rw [(hPOE rfl).1]; exact hb7
    · rw [(hIV4 rfl).1]; exact hb6

/-- Witness for `unnormalised_flags`: at verbosity 2 the ingress window
`88 c3 08 00 00 10 00 00` prints `TTC 8,` and `irq 2,`, and 8 is the port
number 8 masked with 8. -/
theorem unnormalised_flags_witness :
    field_token "TTC" 8
        ∈ (tag_common_print ⟨2, "", 0⟩ [0x88, 0xC3, 0x08, 0, 0, 0x10, 0, 0]).out ∧
    field_token "irq" 2
        ∈ (tag_common_print ⟨2, "", 0⟩ [0x88, 0xC3, 0x08, 0, 0, 0x10, 0, 0]).out ∧
    (8 : Nat) = 8 &&& 8 :=
  ⟨by decide, by decide,
    (unnormalised_flags ⟨2, "", 0⟩ 0x88 0xC3 0x08 0 0 0x10 0 0).2.2.2.1 8 8 (by decide)
      (Or.inr (by decide))⟩

/-- Claim C17: the egress overlay of octet 2 is consistent and lossless. For
every egress window at verbosity above 1 the TC, EPN, POE and TCE tokens are
printed, and whatever values they carry satisfy `16 * TC + EPN = b2`,
`POE = TC div 8`, `TCE = (TC div 4) mod 2`, and a printed IV4 value equals the
TCE value; so octet 2 is recovered from the TC and EPN tokens. -/
theorem egress_overlay (ndo : netdissect_options) (h1 : ndo.ndo_eflag > 1)
    (b0 b1 b2 b3 b4 b5 b6 b7 : u_char)
    (hl : ((b6.val &&& 0x3F) <<< 8) + b7.val ≠ 0) :
    (field_token "TC" ((b2.val &&& 0xF0) >>> 4)
        ∈ (tag_common_print ndo [b0, b1, b2, b3, b4, b5, b6, b7]).out ∧
      field_token "EPN" (b2.val &&& 0x0F)
        ∈ (tag_common_print ndo [b0, b1, b2, b3, b4, b5, b6, b7]).out ∧
      field_token "POE" ((b2.val &&& 0x80) >>> 7)
        ∈ (tag_common_print ndo [b0, b1, b2, b3, b4, b5, b6, b7]).out ∧
      field_token "TCE" ((b2.val &&& 0x40) >>> 6)
        ∈ (tag_common_print ndo [b0, b1, b2, b3, b4, b5, b6, b7]).out) ∧
    (∀ tc epn poe tce : Nat,
      field_token "TC" tc ∈ (tag_common_print ndo [b0, b1, b2, b3, b4, b5, b6, b7]).out →
      field_token "EPN" epn ∈ (tag_common_print ndo [b0, b1, b2, b3, b4, b5, b6, b7]).out →
      field_token "POE" poe ∈ (tag_common_print ndo [b0, b1, b2, b3, b4, b5, b6, b7]).out →
      field_token "TCE" tce ∈ (tag_common_print ndo [b0, b1, b2, b3, b4, b5, b6, b7]).out →
      16 * tc + epn = b2.val ∧ poe = tc / 8 ∧ tce = tc / 4 % 2 ∧
      (∀ iv4 : Nat,
        field_token "IV4" iv4
            ∈ (tag_common_print ndo [b0, b1, b2, b3, b4, b5, b6, b7]).out →
        iv4 = tce)) := by
  obtain ⟨_, hTCE, hTC, hEPN, hPOE⟩ := egress_detail_mem ndo h1 b0 b1 b2 b3 b4 b5 b6 b7 hl
  refine ⟨⟨hTC, hEPN, hPOE, hTCE⟩, ?_⟩
  intro tc epn poe tce htc hepn hpoe htce
  rw [mem_out_iff _ _ _ _ _ _ _ _ _ _ (by decide)] at htc hepn hpoe htce
  have e1 := ((field_list_value _ _ _ _ _ _ _ _ _ htc).2.2.2.2.2.2.1 rfl).1
  have e2 := ((field_list_value _ _ _ _ _ _ _ _ _ hepn).2.2.2.2.2.2.2.1 rfl).1
  have e3 := ((field_list_value _ _ _ _ _ _ _ _ _ hpoe).2.2.2.2.2.2.2.2.1 rfl).1
  have e4 := ((field_list_value _ _ _ _ _ _ _ _ _ htce).2.2.2.2.2.1 rfl).1
  obtain ⟨_, _, _, _, _, _, hsum, hpoe8, htce4, _⟩ := octet_facts b2
  rw [e1, e2, e3, e4]
  refine ⟨hsum, hpoe8, htce4, ?_⟩
  intro iv4 hiv4
  rw [mem_out_iff _ _ _ _ _ _ _ _ _ _ (by decide)] at hiv4
  exact ((field_list_value _ _ _ _ _ _ _ _ _ hiv4).2.2.2.2.2.2.2.2.2.1 rfl).1

/-- Witness for `egress_overlay`: verbosity 2 and the window
`88 c3 c5 12 34 00 00 0a`: TC 12 and EPN 5 give back `0xc5`. -/
theorem egress_overlay_witness :
    (⟨2, "", 0⟩ : netdissect_options).ndo_eflag > 1 ∧
    (((0x00 : u_char).val &&& 0x3F) <<< 8) + (0x0A : u_char).val ≠ 0 ∧
    (16 * 12 + 5 = (0xC5 : u_char).val ∧ 1 = 12 / 8 ∧ 1 = 12 / 4 % 2 ∧
      (∀ iv4 : Nat,
        field_token "IV4" iv4
            ∈ (tag_common_print ⟨2, "", 0⟩
                [0x88, 0xC3, 0xC5, 0x12, 0x34, 0x00, 0x00, 0x0A]).out →
        iv4 = 1)) :=
  ⟨by decide, by decide,
    (egress_overlay ⟨2, "", 0⟩ (by decide) 0x88 0xC3 0xC5 0x12 0x34 0x00 0x00 0x0A
      (by decide)).2 12 5 1 1 (by decide) (by decide) (by decide) (by decide)⟩

/-- Claim C18: printed ranges tied to the mode. For every eight-octet window
and every verbosity: a printed Len value lies in 1..16383 (Len is printed in the
egress branch only, where the length field is non-zero); a printed MAP value
lies in 0..65535 and then the window's length field is zero; and every port
value printed (`Egress Port`, `Ingress Port`, `EPN`) lies in 0..15. -/
theorem printed_ranges (ndo : netdissect_options) (b0 b1 b2 b3 b4 b5 b6 b7 : u_char) :
    (∀ v : Nat,
      field_token "Len" v ∈ (tag_common_print ndo [b0, b1, b2, b3, b4, b5, b6, b7]).out →
      1 ≤ v ∧ v ≤ 16383 ∧ v = ((b6.val &&& 0x3F) <<< 8) + b7.val) ∧
    (∀ v : Nat,
      field_token "MAP" v ∈ (tag_common_print ndo [b0, b1, b2, b3, b4, b5, b6, b7]).out →
      v ≤ 65535 ∧ ((b6.val &&& 0x3F) <<< 8) + b7.val = 0) ∧
    (∀ l ∈ ["Egress Port", "Ingress Port", "EPN"], ∀ v : Nat,
      field_token l v ∈ (tag_common_print ndo [b0, b1, b2, b3, b4, b5, b6, b7]).out →
      v ≤ 15) := by
  have hport := (octet_facts b2).2.2.2.2.2.2.2.2.2.1
  have h63 := (octet_facts b6).2.2.2.2.2.2.2.2.2.2
  have h3 := b3.isLt
  have h4 := b4.isLt
  have h7 := b7.isLt
  refine ⟨?_, ?_, ?_⟩
  · intro v hv
    rw [mem_out_iff _ _ _ _ _ _ _ _ _ _ (by decide)] at hv
    obtain ⟨e, hne⟩ := (field_list_value _ _ _ _ _ _ _ _ _ hv).2.2.2.2.2.2.2.2.2.2.2.1 rfl
    rw [e]
    rw [Nat.shiftLeft_eq] at hne ⊢
    exact ⟨by omega, by omega, rfl⟩
  · intro v hv
    rw [mem_out_iff _ _ _ _ _ _ _ _ _ _ (by decide)] at hv
    obtain ⟨e, hz⟩ := (field_list_value _ _ _ _ _ _ _ _ _ hv).2.2.2.1 rfl
    rw [e, Nat.shiftLeft_eq]
    exact ⟨by omega, hz⟩
  · intro l hl
    have hlab : l ∈ LABELS := by
      revert l
      decide
    intro v hv
    rw [mem_out_iff _ _ _ _ _ _ _ _ _ l hlab] at hv
    obtain ⟨_, hEP, hIP, _, _, _, _, hEPN, _⟩ := field_list_value _ _ _ _ _ _ _ _ _ hv
    simp only [List.mem_cons, List.mem_singleton, List.not_mem_nil, or_false] at hl
    rcases hl with rfl | rfl | rfl
    · rw [(hEP rfl).1]; exact hport
    · rw [(hIP rfl).1]; exact hport
    · rw [(hEPN rfl).1]; exact hport

/-- Witness for `printed_ranges`: at verbosity 2 the window
`88 c3 ff ff ff ff ff ff` prints the largest length, 16383, and port 15. -/
theorem printed_ranges_witness :
    field_token "Len" 16383
        ∈ (tag_common_print ⟨2, "", 0⟩
            [0x88, 0xC3, 0xFF, 0xFF, 0xFF, 0xFF, 0xFF, 0xFF]).out ∧
    (1 ≤ 16383 ∧ 16383 ≤ 16383
      ∧ 16383 = (((0xFF : u_char).val &&& 0x3F) <<< 8) + (0xFF : u_char).val) :=
  ⟨by decide,
    (printed_ranges ⟨2, "", 0⟩ 0x88 0xC3 0xFF 0xFF 0xFF 0xFF 0xFF 0xFF).1 16383 (by decide)⟩

/-! ## Ignored bits -/

/-- Two octets that agree under a mask agree under any mask contained in it. -/
theorem land_sub (c b k m : Nat) (h : c &&& k = b &&& k) (hm : k &&& m = m) :
    c &&& m = b &&& m := by
  rw [← hm, ← Nat.land_assoc, ← Nat.land_assoc, h]

/-- Claim C19: ignored bits. For every verbosity, the outcome of the tag
printer (and of the field printer) on an egress window is unchanged by any
change to octet 4, octet 5, the top two bits of octet 3 or the top two bits of
octet 6; on an ingress window it is unchanged by any change to the top two bits
of octet 6, to bit `0x20` of octet 2 (TSE), or to any bit of octet 5 other than
`0x10`. -/
theorem ignored_bits (tbl : List tok) (ndo : netdissect_options)
    (b0 b1 b2 b3 b4 b5 b6 b7 : u_char) :
    (((b6.val &&& 0x3F) <<< 8) + b7.val ≠ 0 →
      ∀ c3 c4 c5 c6 : u_char,
        c3.val &&& 0x3F = b3.val &&& 0x3F → c6.val &&& 0x3F = b6.val &&& 0x3F →
        edsa_tag_print tbl ndo [b0, b1, b2, c3, c4, c5, c6, b7]
          = edsa_tag_print tbl ndo [b0, b1, b2, b3, b4, b5, b6, b7] ∧
        tag_common_print ndo [b0, b1, b2, c3, c4, c5, c6, b7]
          = tag_common_print ndo [b0, b1, b2, b3, b4, b5, b6, b7]) ∧
    (((b6.val &&& 0x3F) <<< 8) + b7.val = 0 →
      ∀ c2 c5 c6 : u_char,
        c2.val &&& 0xDF = b2.val &&& 0xDF → c5.val &&& 0x10 = b5.val &&& 0x10 →
        c6.val &&& 0x3F = b6.val &&& 0x3F →
        edsa_tag_print tbl ndo [b0, b1, c2, b3, b4, c5, c6, b7]
          = edsa_tag_print tbl ndo [b0, b1, b2, b3, b4, b5, b6, b7] ∧
        tag_common_print ndo [b0, b1, c2, b3, b4, c5, c6, b7]
          = tag_common_print ndo [b0, b1, b2, b3, b4, b5, b6, b7]) := by
  constructor
  · intro hlen c3 c4 c5 c6 h3 h6
    have hfl : field_list ndo.ndo_eflag b2 c3 c4 c5 c6 b7
        = field_list ndo.ndo_eflag b2 b3 b4 b5 b6 b7 := by
      unfold field_list
      rw [h3, h6, if_pos hlen, if_pos hlen]
    have hf : tag_common_print ndo [b0, b1, b2, c3, c4, c5, c6, b7]
        = tag_common_print ndo [b0, b1, b2, b3, b4, b5, b6, b7] := by
      rw [tcp_eq_field_list, tcp_eq_field_list, hfl]
    exact ⟨by rw [edsa_8, edsa_8, hf], hf⟩
  · intro hlen c2 c5 c6 h2 h5 h6
    have hfl : field_list ndo.ndo_eflag c2 b3 b4 c5 c6 b7
        = field_list ndo.ndo_eflag b2 b3 b4 b5 b6 b7 := by
      unfold field_list
      have hnot : ¬ (((b6.val &&& 0x3F) <<< 8) + b7.val ≠ 0) := fun hne => hne hlen
      rw [h6, h5, if_neg hnot, if_neg hnot,
        land_sub c2.val b2.val 0xDF 0x0F h2 (by decide),
        land_sub c2.val b2.val 0xDF 0x80 h2 (by decide),
        land_sub c2.val b2.val 0xDF 0x40 h2 (by decide),
        land_sub c2.val b2.val 0xDF 0x08 h2 (by decide),
        land_sub c2.val b2.val 0xDF 0x10 h2 (by decide)]
    have hf : tag_common_print ndo [b0, b1, c2, b3, b4, c5, c6, b7]
        = tag_common_print ndo [b0, b1, b2, b3, b4, b5, b6, b7] := by
      rw [tcp_eq_field_list, tcp_eq_field_list, hfl]
    exact ⟨by rw [edsa_8, edsa_8, hf], hf⟩

/-- Witness for `ignored_bits`: at verbosity 2 the egress window
`88 c3 c5 12 34 00 00 0a` and the window `88 c3 c5 d2 ff ff c0 0a`, which
differs in octets 4 and 5 and in the top two bits of octets 3 and 6, are printed
alike; so are the ingress window `88 c3 05 12 34 00 00 00` and the window
`88 c3 25 12 34 ef c0 00`. -/
theorem ignored_bits_witness :
    (((0x00 : u_char).val &&& 0x3F) <<< 8) + (0x0A : u_char).val ≠ 0 ∧
    (0xD2 : u_char).val &&& 0x3F = (0x12 : u_char).val &&& 0x3F ∧
    (0xC0 : u_char).val &&& 0x3F = (0x00 : u_char).val &&& 0x3F ∧
    edsa_tag_print [] ⟨2, "", 0⟩ [0x88, 0xC3, 0xC5, 0xD2, 0xFF, 0xFF, 0xC0, 0x0A]
      = edsa_tag_print [] ⟨2, "", 0⟩ [0x88, 0xC3, 0xC5, 0x12, 0x34, 0x00, 0x00, 0x0A] ∧
    (((0x00 : u_char).val &&& 0x3F) <<< 8) + (0x00 : u_char).val = 0 ∧
    (0x25 : u_char).val &&& 0xDF = (0x05 : u_char).val &&& 0xDF ∧
    (0xEF : u_char).val &&& 0x10 = (0x00 : u_char).val &&& 0x10 ∧
    edsa_tag_print [] ⟨2, "", 0⟩ [0x88, 0xC3, 0x25, 0x12, 0x34, 0xEF, 0xC0, 0x00]
      = edsa_tag_print [] ⟨2, "", 0⟩ [0x88, 0xC3, 0x05, 0x12, 0x34, 0x00, 0x00, 0x00] :=
  ⟨by decide, by decide, by decide,
    ((ignored_bits [] ⟨2, "", 0⟩ 0x88 0xC3 0xC5 0x12 0x34 0x00 0x00 0x0A).1 (by decide)
      0xD2 0xFF 0xFF 0xC0 (by decide) (by decide)).1,
    by decide, by decide, by decide,
    ((ignored_bits [] ⟨2, "", 0⟩ 0x88 0xC3 0x05 0x12 0x34 0x00 0x00 0x00).2 (by decide)
      0x25 0xEF 0xC0 (by decide) (by decide) (by decide)).1⟩

end GSW1XX
